import Mathlib

/-!
# Deep Claw Analytics — verification of the event-ingestion and analytics pipeline

Shallow embedding of the relevant parts of the repository:

* `src/timing-analytics.js` — zone of maximum participation, peak hours,
  hourly aggregation (`aggregateHourlyActivity`, `getActivityByType`,
  `calculateMaxParticipationZone`);
* `src/relay-listener.js` — event routing (`processMention`, `processFollow`,
  `processZap`) against the `events` table of `sql/schema.sql`, whose
  `event_id` column carries a global `UNIQUE` constraint;
* `src/auth.js` — the `rateLimit` middleware;
* `src/growth-metrics.js` (`acknowledgeEvents`) and `src/agent-api.js`
  (`getActivity`);
* `src/network-scanner.js` — `quickScanNetwork`, `scanUserNetwork` and the
  `POST /admin/scan-network` handler.

Machine integers are modelled as `ℕ`; wall-clock instants as UNIX seconds;
SQL tables as Lean lists of row structures.  JavaScript's stable
`Array.prototype.sort` with comparator `(a, b) => b.count - a.count` over a
list that is in ascending hour order is modelled as a sort by the total order
"larger count first, ties by smaller hour".
-/

namespace DeepClaw

/-! ## Timing analytics: zone of maximum participation
    (src/timing-analytics.js, `calculateMaxParticipationZone`) -/

/-- An hour index `n % 24`, as used by the wraparound accesses
`hourlyDistribution[(start + i) % 24]`. -/
def hourIdx (n : ℕ) : Fin 24 := ⟨n % 24, Nat.mod_lt _ (by norm_num)⟩

/-- Sum of the circular window `[start, start + w) mod 24` of a 24-hour
histogram; the inner loop of `calculateMaxParticipationZone`. -/
def windowSum (hd : Fin 24 → ℕ) (start w : ℕ) : ℕ :=
  ∑ i ∈ Finset.range w, hd (hourIdx (start + i))

/-- Total activity of a histogram: `hourlyDistribution.reduce((sum, h) => sum
+ h.activity_count, 0)`. -/
def totalActivity (hd : Fin 24 → ℕ) : ℕ := ∑ h : Fin 24, hd h

/-- The `bestZone` object built inside the scan loop (without the
`percentage_of_total` field, which is attached after the loop). -/
structure Zone where
  start_hour_gmt : ℕ
  end_hour_gmt : ℕ
  window_size : ℕ
  total_activity : ℕ
deriving Repr, DecidableEq

/-- The returned zone, after `percentage_of_total` has been attached. -/
structure ZoneFull extends Zone where
  percentage_of_total : ℚ
deriving Repr, DecidableEq

/-- The pairs `(windowSize, start)` scanned by the two nested loops, in
program order: `windowSize` from 3 to 6 outermost, `start` from 0 to 23. -/
def zonePairs : List (ℕ × ℕ) :=
  [3, 4, 5, 6].flatMap fun w => (List.range 24).map fun s => (w, s)

/-- One iteration of the scan: update `(bestZone, maxActivity)` when the
current window's activity strictly exceeds `maxActivity`. -/
def zoneStep (hd : Fin 24 → ℕ) (st : Option Zone × ℕ) (p : ℕ × ℕ) :
    Option Zone × ℕ :=
  if st.2 < windowSum hd p.2 p.1 then
    (some { start_hour_gmt := p.2
            end_hour_gmt := (p.2 + p.1 - 1) % 24
            window_size := p.1
            total_activity := windowSum hd p.2 p.1 },
     windowSum hd p.2 p.1)
  else st

/-- The full double loop of `calculateMaxParticipationZone`, starting from
`bestZone = null`, `maxActivity = 0`. -/
def zoneLoop (hd : Fin 24 → ℕ) : Option Zone × ℕ :=
  zonePairs.foldl (zoneStep hd) (none, 0)

/-- `parseFloat(x.toFixed(1))` for a nonnegative value: round to one decimal
place, half away from zero. -/
def round1 (q : ℚ) : ℚ := ((⌊q * 10 + 1 / 2⌋ : ℤ) : ℚ) / 10

/-- `calculateMaxParticipationZone`: returns `null` when the loop never
updated `bestZone`, otherwise the best zone with
`percentage_of_total = (maxActivity / totalActivity) * 100` rounded to one
decimal (0 when the total is 0). -/
def calculateMaxParticipationZone (hd : Fin 24 → ℕ) : Option ZoneFull :=
  match zoneLoop hd with
  | (none, _) => none
  | (some b, m) =>
    let total := totalActivity hd
    some { toZone := b
           percentage_of_total :=
             if 0 < total then round1 ((m : ℚ) / (total : ℚ) * 100) else 0 }

/-! ## Timing analytics: peak hours
    (src/timing-analytics.js, `getActivityByType`) -/

/-- Order used to model the stable JS sort
`[...hourlyDistribution].sort((a, b) => b.activity_count - a.activity_count)`
on (hour, count) pairs: larger count first, equal counts keep the original
(ascending hour) order. -/
def peakKey (a b : ℕ × ℕ) : Prop := b.2 < a.2 ∨ (a.2 = b.2 ∧ a.1 ≤ b.1)

instance : DecidableRel peakKey := fun a b => by
  unfold peakKey; infer_instance

instance : IsTotal (ℕ × ℕ) peakKey where
  total a b := by
    rcases Nat.lt_trichotomy a.2 b.2 with h | h | h
    · exact Or.inr (Or.inl h)
    · rcases Nat.le_total a.1 b.1 with h1 | h1
      · exact Or.inl (Or.inr ⟨h.symm ▸ rfl, h1⟩)
      · exact Or.inr (Or.inr ⟨h ▸ rfl, h1⟩)
    · exact Or.inl (Or.inl h)

instance : IsTrans (ℕ × ℕ) peakKey where
  trans a b c hab hbc := by
    rcases hab with h1 | ⟨e1, l1⟩ <;> rcases hbc with h2 | ⟨e2, l2⟩
    · exact Or.inl (h2.trans h1)
    · exact Or.inl (e2 ▸ h1)
    · exact Or.inl (e1 ▸ h2)
    · exact Or.inr ⟨e1.trans e2, l1.trans l2⟩

/-- The `hourlyDistribution` array: pairs `(hour_gmt, activity_count)` for
hours 0..23 in ascending order. -/
def enumHist (hd : Fin 24 → ℕ) : List (ℕ × ℕ) :=
  (List.finRange 24).map fun h : Fin 24 => (Fin.val h, hd h)

/-- The sorted copy of the distribution (count descending, stable). -/
def sortedHist (hd : Fin 24 → ℕ) : List (ℕ × ℕ) :=
  List.insertionSort peakKey (enumHist hd)

/-- `peak_hours`: `sorted.slice(0, 3).map(h => h.hour_gmt)`. -/
def peakHours (hd : Fin 24 → ℕ) : List ℕ :=
  ((sortedHist hd).take 3).map Prod.fst

/-- Histogram lookup by plain natural hour (0 outside 0..23); used only to
state properties. -/
def histAt (hd : Fin 24 → ℕ) (h : ℕ) : ℕ :=
  if hh : h < 24 then hd ⟨h, hh⟩ else 0

lemma mem_enumHist {hd : Fin 24 → ℕ} {p : ℕ × ℕ} (hp : p ∈ enumHist hd) :
    p.1 < 24 ∧ p.2 = histAt hd p.1 := by
  unfold enumHist at hp
  obtain ⟨h, -, rfl⟩ := List.mem_map.1 hp
  refine ⟨h.isLt, ?_⟩
  simp [histAt, h.isLt]

lemma sortedHist_perm (hd : Fin 24 → ℕ) :
    (sortedHist hd).Perm (enumHist hd) :=
  List.perm_insertionSort _ _

lemma mem_sortedHist {hd : Fin 24 → ℕ} {p : ℕ × ℕ} (hp : p ∈ sortedHist hd) :
    p.1 < 24 ∧ p.2 = histAt hd p.1 :=
  mem_enumHist ((sortedHist_perm hd).mem_iff.1 hp)

lemma sortedHist_sorted (hd : Fin 24 → ℕ) :
    List.Sorted peakKey (sortedHist hd) :=
  List.sorted_insertionSort _ _

lemma sortedHist_fst_nodup (hd : Fin 24 → ℕ) :
    ((sortedHist hd).map Prod.fst).Nodup := by
  have hperm : ((sortedHist hd).map Prod.fst).Perm ((enumHist hd).map Prod.fst) :=
    (sortedHist_perm hd).map _
  refine hperm.nodup_iff.2 ?_
  have heq : (enumHist hd).map Prod.fst = (List.finRange 24).map Fin.val := by
    unfold enumHist
    rw [List.map_map]
    rfl
  rw [heq]
  exact (List.nodup_finRange 24).map Fin.val_injective

/-- C7, part that quantifies over a non-member hour: every peak hour's count
dominates the count of every hour outside the peak list. -/
lemma peakHours_dominates {hd : Fin 24 → ℕ} {h : ℕ} (hm : h ∈ peakHours hd)
    (h' : Fin 24) (hn : (h' : ℕ) ∉ peakHours hd) :
    hd h' ≤ histAt hd h := by
  unfold peakHours at hm hn
  obtain ⟨p, hp, rfl⟩ := List.mem_map.1 hm
  have hpfull : p ∈ sortedHist hd := List.mem_of_mem_take hp
  have hpchar := mem_sortedHist hpfull
  set q : ℕ × ℕ := ((h' : ℕ), hd h') with hq
  have hqenum : q ∈ enumHist hd := by
    unfold enumHist
    exact List.mem_map.2 ⟨h', List.mem_finRange h', rfl⟩
  have hqsorted : q ∈ sortedHist hd := (sortedHist_perm hd).mem_iff.2 hqenum
  have hsplit : (sortedHist hd).take 3 ++ (sortedHist hd).drop 3 = sortedHist hd :=
    List.take_append_drop 3 _
  have hqdrop : q ∈ (sortedHist hd).drop 3 := by
    rcases List.mem_append.1 (hsplit ▸ hqsorted) with hin | hin
    · exact absurd (List.mem_map.2 ⟨q, hin, rfl⟩) hn
    · exact hin
  have hsorted := sortedHist_sorted hd
  rw [← hsplit] at hsorted
  have hrel : peakKey p q :=
    (List.pairwise_append.1 hsorted).2.2 p hp q hqdrop
  rcases hrel with hlt | ⟨heq, -⟩
  · exact le_of_lt (hpchar.2 ▸ hlt)
  · exact le_of_eq (hpchar.2 ▸ heq.symm)

/-- C7: `peak_hours` lists at most three hours of `[0, 24)`, each of whose
counts is at least the count of every hour not listed, in descending count
order with ties broken by the lower hour index. -/
theorem peakHours_spec (hd : Fin 24 → ℕ) :
    (∀ h ∈ peakHours hd, h < 24) ∧
    (peakHours hd).length ≤ 3 ∧
    (∀ h ∈ peakHours hd, ∀ h' : Fin 24,
      (h' : ℕ) ∉ peakHours hd → hd h' ≤ histAt hd h) ∧
    List.Chain' (fun a b =>
      histAt hd b < histAt hd a ∨ (histAt hd a = histAt hd b ∧ a < b))
      (peakHours hd) := by
  refine ⟨?_, ?_, ?_, ?_⟩
  · intro h hm
    unfold peakHours at hm
    obtain ⟨p, hp, rfl⟩ := List.mem_map.1 hm
    exact (mem_sortedHist (List.mem_of_mem_take hp)).1
  · calc (peakHours hd).length = ((sortedHist hd).take 3).length := by
          simp [peakHours]
      _ ≤ 3 := List.length_take_le 3 _
  · exact fun h hm h' hn => peakHours_dominates hm h' hn
  · have hpw : ((sortedHist hd).take 3).Pairwise peakKey :=
      (sortedHist_sorted hd).sublist (List.take_sublist 3 _)
    have hnd : (((sortedHist hd).take 3).map Prod.fst).Nodup :=
      (sortedHist_fst_nodup hd).sublist
        (List.Sublist.map Prod.fst (List.take_sublist 3 _))
    have hne : ((sortedHist hd).take 3).Pairwise (fun a b => a.1 ≠ b.1) :=
      List.pairwise_map.1 hnd
    have hcomb := hpw.and hne
    have himp : ((sortedHist hd).take 3).Pairwise (fun a b =>
        histAt hd b.1 < histAt hd a.1 ∨
        (histAt hd a.1 = histAt hd b.1 ∧ a.1 < b.1)) := by
      refine hcomb.imp_of_mem ?_
      intro a b ha hb hab
      have hca := (mem_sortedHist (List.mem_of_mem_take ha)).2
      have hcb := (mem_sortedHist (List.mem_of_mem_take hb)).2
      rcases hab with ⟨hk | ⟨he, hle⟩, hne1⟩
      · exact Or.inl (by rw [← hca, ← hcb] ; exact hk)
      · exact Or.inr ⟨by rw [← hca, ← hcb] ; exact he,
          lt_of_le_of_ne hle hne1⟩
    unfold peakHours
    exact (List.pairwise_map.2 himp).chain'

/-! ## Zone-of-participation loop lemmas -/

/-- Bounds satisfied by every scanned `(windowSize, start)` pair. -/
def pairOK (p : ℕ × ℕ) : Prop := 3 ≤ p.1 ∧ p.1 ≤ 6 ∧ p.2 < 24

instance : DecidablePred pairOK := fun p => by
  unfold pairOK; infer_instance

/-- Scan order of the two nested loops: smaller window size first, then
smaller start hour. -/
def zoneLE (a b : ℕ × ℕ) : Prop := a.1 < b.1 ∨ (a.1 = b.1 ∧ a.2 ≤ b.2)

instance : DecidableRel zoneLE := fun a b => by
  unfold zoneLE; infer_instance

lemma zonePairs_pairOK : ∀ p ∈ zonePairs, pairOK p := by decide

lemma zonePairs_sorted : zonePairs.Pairwise zoneLE := by decide

lemma mem_zonePairs {p : ℕ × ℕ} (hp : pairOK p) : p ∈ zonePairs := by
  obtain ⟨h3, h6, h24⟩ := hp
  unfold zonePairs
  rw [List.mem_flatMap]
  refine ⟨p.1, by interval_cases h : p.1 <;> simp_all, ?_⟩
  rw [List.mem_map]
  exact ⟨p.2, List.mem_range.2 h24, rfl⟩

/-- Invariant carried by the `(bestZone, maxActivity)` state. -/
def ZInv (hd : Fin 24 → ℕ) : Option Zone × ℕ → Prop
  | (none, m) => m = 0
  | (some b, m) =>
      m = b.total_activity ∧ 0 < m ∧
      b.total_activity = windowSum hd b.start_hour_gmt b.window_size ∧
      b.end_hour_gmt = (b.start_hour_gmt + b.window_size - 1) % 24 ∧
      3 ≤ b.window_size ∧ b.window_size ≤ 6 ∧ b.start_hour_gmt < 24

lemma zoneStep_snd_le (hd : Fin 24 → ℕ) (st : Option Zone × ℕ) (p : ℕ × ℕ) :
    st.2 ≤ (zoneStep hd st p).2 := by
  unfold zoneStep
  split
  · exact le_of_lt (by assumption)
  · exact le_refl _

lemma zoneFold_snd_mono (hd : Fin 24 → ℕ) :
    ∀ (l : List (ℕ × ℕ)) (st : Option Zone × ℕ),
      st.2 ≤ (l.foldl (zoneStep hd) st).2 := by
  intro l
  induction l with
  | nil => intro st; exact le_refl _
  | cons p l ih =>
    intro st
    exact le_trans (zoneStep_snd_le hd st p) (ih (zoneStep hd st p))

lemma zoneFold_stay (hd : Fin 24 → ℕ) :
    ∀ (l : List (ℕ × ℕ)) (st : Option Zone × ℕ),
      (l.foldl (zoneStep hd) st).2 = st.2 →
      l.foldl (zoneStep hd) st = st := by
  intro l
  induction l with
  | nil => intro st _; rfl
  | cons p l ih =>
    intro st hsnd
    rw [List.foldl_cons] at hsnd ⊢
    by_cases hup : st.2 < windowSum hd p.2 p.1
    · exfalso
      have h1 : (zoneStep hd st p).2 = windowSum hd p.2 p.1 := by
        unfold zoneStep; rw [if_pos hup]
      have h2 := zoneFold_snd_mono hd l (zoneStep hd st p)
      rw [h1] at h2
      omega
    · have hstep : zoneStep hd st p = st := by
        unfold zoneStep; rw [if_neg hup]
      rw [hstep] at hsnd ⊢
      exact ih st hsnd

lemma zoneFold_ub (hd : Fin 24 → ℕ) :
    ∀ (l : List (ℕ × ℕ)) (st : Option Zone × ℕ),
      ∀ p ∈ l, windowSum hd p.2 p.1 ≤ (l.foldl (zoneStep hd) st).2 := by
  intro l
  induction l with
  | nil => intro st p hp; cases hp
  | cons r l ih =>
    intro st p hp
    rw [List.foldl_cons]
    rcases List.mem_cons.1 hp with rfl | hp
    · refine le_trans ?_ (zoneFold_snd_mono hd l (zoneStep hd st p))
      unfold zoneStep
      split
      · exact le_refl _
      · omega
    · exact ih (zoneStep hd st r) p hp

lemma zoneFold_inv (hd : Fin 24 → ℕ) :
    ∀ (l : List (ℕ × ℕ)) (st : Option Zone × ℕ),
      (∀ p ∈ l, pairOK p) → ZInv hd st →
      ZInv hd (l.foldl (zoneStep hd) st) := by
  intro l
  induction l with
  | nil => intro st _ h; exact h
  | cons p l ih =>
    intro st hok hinv
    rw [List.foldl_cons]
    refine ih (zoneStep hd st p) (fun q hq => hok q (List.mem_cons_of_mem _ hq)) ?_
    obtain ⟨h3, h6, h24⟩ := hok p (List.mem_cons_self _ _)
    unfold zoneStep
    split
    · refine ⟨rfl, ?_, rfl, rfl, h3, h6, h24⟩
      omega
    · exact hinv

lemma zoneFold_zero (hd : Fin 24 → ℕ) :
    ∀ (l : List (ℕ × ℕ)) (st : Option Zone × ℕ),
      (∀ p ∈ l, windowSum hd p.2 p.1 = 0) →
      l.foldl (zoneStep hd) st = st := by
  intro l
  induction l with
  | nil => intro st _; rfl
  | cons p l ih =>
    intro st hz
    rw [List.foldl_cons]
    have hstep : zoneStep hd st p = st := by
      unfold zoneStep
      rw [hz p (List.mem_cons_self _ _)]
      rw [if_neg (by omega)]
    rw [hstep]
    exact ih st fun q hq => hz q (List.mem_cons_of_mem _ hq)

lemma zoneFold_tie (hd : Fin 24 → ℕ) :
    ∀ (l : List (ℕ × ℕ)) (st : Option Zone × ℕ),
      l.Pairwise zoneLE →
      (∀ b, st.1 = some b → ∀ p ∈ l, zoneLE (b.window_size, b.start_hour_gmt) p) →
      ∀ p ∈ l, windowSum hd p.2 p.1 = (l.foldl (zoneStep hd) st).2 →
      ∀ b, (l.foldl (zoneStep hd) st).1 = some b →
      zoneLE (b.window_size, b.start_hour_gmt) p := by
  intro l
  induction l with
  | nil => intro st _ _ p hp; cases hp
  | cons r l ih =>
    intro st hpw hpre p hp hsum b hb
    rw [List.foldl_cons] at hsum hb
    have hpwtail := (List.pairwise_cons.1 hpw).2
    have hhead := (List.pairwise_cons.1 hpw).1
    by_cases hup : st.2 < windowSum hd r.2 r.1
    · -- the head updates the state: new best zone is built from r
      have hstep : zoneStep hd st r =
          (some { start_hour_gmt := r.2
                  end_hour_gmt := (r.2 + r.1 - 1) % 24
                  window_size := r.1
                  total_activity := windowSum hd r.2 r.1 },
           windowSum hd r.2 r.1) := by
        unfold zoneStep; rw [if_pos hup]
      rw [hstep] at hsum hb
      rcases List.mem_cons.1 hp with rfl | hptail
      · -- p = r: show the final zone is lex-below r
        by_cases hmore :
            (l.foldl (zoneStep hd)
              (some { start_hour_gmt := p.2
                      end_hour_gmt := (p.2 + p.1 - 1) % 24
                      window_size := p.1
                      total_activity := windowSum hd p.2 p.1 },
               windowSum hd p.2 p.1)).2 = windowSum hd p.2 p.1
        · have := zoneFold_stay hd l _ hmore
          rw [this] at hb
          cases hb
          exact Or.inr ⟨rfl, le_refl _⟩
        · exact absurd hsum.symm hmore
      · -- p in the tail
        refine ih _ ?_ ?_ p hptail hsum b hb
        · exact hpwtail
        · intro b0 hb0 q hq
          cases hb0
          exact hhead q hq
    · have hstep : zoneStep hd st r = st := by
        unfold zoneStep; rw [if_neg hup]
      rw [hstep] at hsum hb
      rcases List.mem_cons.1 hp with rfl | hptail
      · -- p = r is the head but did not update: its sum is at most st.2
        have hle : windowSum hd p.2 p.1 ≤ st.2 := by omega
        have hge := zoneFold_snd_mono hd l st
        have heq2 : (l.foldl (zoneStep hd) st).2 = st.2 := by omega
        have := zoneFold_stay hd l st heq2
        rw [this] at hb
        exact hpre b hb p (List.mem_cons_self _ _)
      · exact ih st hpwtail
          (fun b0 hb0 q hq => hpre b0 hb0 q (List.mem_cons_of_mem _ hq))
          p hptail hsum b hb

lemma windowSum_le_total (hd : Fin 24 → ℕ) (s w : ℕ) (hw : w ≤ 24) :
    windowSum hd s w ≤ totalActivity hd := by
  unfold windowSum totalActivity
  have hinj : ∀ i ∈ Finset.range w, ∀ j ∈ Finset.range w,
      hourIdx (s + i) = hourIdx (s + j) → i = j := by
    intro i hi j hj hij
    have hi' := Finset.mem_range.1 hi
    have hj' := Finset.mem_range.1 hj
    have hval : (s + i) % 24 = (s + j) % 24 := congrArg Fin.val hij
    omega
  calc ∑ i ∈ Finset.range w, hd (hourIdx (s + i))
      = ∑ x ∈ (Finset.range w).image (fun i => hourIdx (s + i)), hd x :=
        (Finset.sum_image hinj).symm
    _ ≤ ∑ x : Fin 24, hd x := Finset.sum_le_sum_of_subset (Finset.subset_univ _)

lemma single_le_window (hd : Fin 24 → ℕ) (h : Fin 24) :
    hd h ≤ windowSum hd (h : ℕ) 3 := by
  have h0 : hourIdx ((h : ℕ) + 0) = h := by
    apply Fin.ext
    simp [hourIdx, Nat.mod_eq_of_lt h.isLt]
  have hexp : windowSum hd (h : ℕ) 3 =
      hd (hourIdx ((h : ℕ) + 0)) + hd (hourIdx ((h : ℕ) + 1)) +
        hd (hourIdx ((h : ℕ) + 2)) := by
    unfold windowSum
    rw [Finset.sum_range_succ, Finset.sum_range_succ, Finset.sum_range_one]
  rw [hexp, h0]
  omega

lemma round1_pos {q : ℚ} (h1 : 1 ≤ q) : 0 < round1 q := by
  unfold round1
  have hfl : (10 : ℤ) ≤ ⌊q * 10 + 1 / 2⌋ := by
    rw [Int.le_floor]
    push_cast
    linarith
  have hq : (10 : ℚ) ≤ ((⌊q * 10 + 1 / 2⌋ : ℤ) : ℚ) := by
    exact_mod_cast hfl
  linarith

lemma round1_le_100 {q : ℚ} (h : q ≤ 100) : round1 q ≤ 100 := by
  unfold round1
  have hfl : ⌊q * 10 + 1 / 2⌋ < 1001 := by
    rw [Int.floor_lt]
    push_cast
    linarith
  have hq : ((⌊q * 10 + 1 / 2⌋ : ℤ) : ℚ) ≤ 1000 := by
    exact_mod_cast Int.lt_add_one_iff.1 hfl
  linarith

/-- What the (amended) specification asks of the returned zone on a
histogram with positive total activity: scanned bounds, consistent fields,
maximality of the circular-window sum, ties broken by smaller window size
then smaller start hour, and a percentage in (0, 100]. -/
def ZoneOk (hd : Fin 24 → ℕ) : Prop :=
  ∃ z : ZoneFull, calculateMaxParticipationZone hd = some z ∧
    3 ≤ z.window_size ∧ z.window_size ≤ 6 ∧ z.start_hour_gmt < 24 ∧
    z.end_hour_gmt = (z.start_hour_gmt + z.window_size - 1) % 24 ∧
    z.total_activity = windowSum hd z.start_hour_gmt z.window_size ∧
    (∀ w s, 3 ≤ w → w ≤ 6 → s < 24 → windowSum hd s w ≤ z.total_activity) ∧
    (∀ w s, 3 ≤ w → w ≤ 6 → s < 24 →
      windowSum hd s w = z.total_activity →
      z.window_size < w ∨ (z.window_size = w ∧ z.start_hour_gmt ≤ s)) ∧
    0 < z.percentage_of_total ∧ z.percentage_of_total ≤ 100

/-- C4 (amended): for every 24-hour histogram, the zone computation scans
W ∈ {3,4,5,6} and s ∈ {0..23}; with zero total activity it returns `null`
(not a zone of percentage 0); with positive total activity it returns the
(s, W) of maximal circular-window sum, ties broken by smaller W then
smaller s, and its `percentage_of_total` lies in (0, 100]. -/
theorem calculateMaxParticipationZone_spec (hd : Fin 24 → ℕ) :
    (totalActivity hd = 0 → calculateMaxParticipationZone hd = none) ∧
    (0 < totalActivity hd → ZoneOk hd) := by
  constructor
  · intro htot
    have hall : ∀ h : Fin 24, hd h = 0 := by
      intro h
      have := Finset.sum_eq_zero_iff.1 htot
      exact this h (Finset.mem_univ h)
    have hws : ∀ p ∈ zonePairs, windowSum hd p.2 p.1 = 0 := by
      intro p _
      unfold windowSum
      exact Finset.sum_eq_zero fun i _ => hall _
    unfold calculateMaxParticipationZone zoneLoop
    rw [zoneFold_zero hd zonePairs (none, 0) hws]
  · intro htot
    obtain ⟨h, -, hh⟩ := Finset.exists_ne_zero_of_sum_ne_zero
      (by unfold totalActivity at htot; omega : ∑ x : Fin 24, hd x ≠ 0)
    have hmem : (3, (h : ℕ)) ∈ zonePairs :=
      mem_zonePairs ⟨by norm_num, by norm_num, h.isLt⟩
    have hub3 : windowSum hd (h : ℕ) 3 ≤ (zoneLoop hd).2 :=
      zoneFold_ub hd zonePairs (none, 0) (3, (h : ℕ)) hmem
    have hpos : 0 < (zoneLoop hd).2 := by
      have hle := single_le_window hd h
      omega
    have hinv : ZInv hd (zoneLoop hd) :=
      zoneFold_inv hd zonePairs (none, 0) zonePairs_pairOK rfl
    rcases hzl : zoneLoop hd with ⟨ob, m⟩
    rcases ob with - | b
    · rw [hzl] at hinv hpos
      exact absurd hinv (by simp [ZInv]; omega)
    · rw [hzl] at hinv hpos
      obtain ⟨hm, hmpos, hweq, hend, hw3, hw6, hs24⟩ := hinv
      -- the stored maximum bounds every scanned window
      have hub : ∀ w s, 3 ≤ w → w ≤ 6 → s < 24 → windowSum hd s w ≤ m := by
        intro w s h3 h6 hs
        have := zoneFold_ub hd zonePairs (none, 0) (w, s)
          (mem_zonePairs ⟨h3, h6, hs⟩)
        rw [show zonePairs.foldl (zoneStep hd) (none, 0) = zoneLoop hd from rfl,
          hzl] at this
        exact this
      -- every single hour is below the maximum, hence total ≤ 24 * m
      have hhour : ∀ x : Fin 24, hd x ≤ m := fun x =>
        le_trans (single_le_window hd x) (hub 3 (x : ℕ) (le_refl 3) (by norm_num) x.isLt)
      have htle : totalActivity hd ≤ 24 * m := by
        unfold totalActivity
        calc ∑ x : Fin 24, hd x ≤ ∑ _x : Fin 24, m := Finset.sum_le_sum fun x _ => hhour x
          _ = 24 * m := by simp [Finset.sum_const, mul_comm]
      have hmle : m ≤ totalActivity hd := by
        rw [hm, hweq]
        exact windowSum_le_total hd _ _ (by omega)
      -- assemble the returned zone
      refine ⟨{ toZone := b,
                percentage_of_total :=
                  if 0 < totalActivity hd then
                    round1 ((m : ℚ) / (totalActivity hd : ℚ) * 100)
                  else 0 }, ?_, hw3, hw6, hs24, hend, hweq, ?_, ?_, ?_, ?_⟩
      · unfold calculateMaxParticipationZone
        rw [hzl]
      · intro w s h3 h6 hs
        rw [← hm]
        exact hub w s h3 h6 hs
      · intro w s h3 h6 hs hsum
        have hsum2 : windowSum hd s w = b.total_activity := hsum
        have hsum3 : windowSum hd (w, s).2 (w, s).1 = (zoneLoop hd).2 := by
          rw [hzl]
          show windowSum hd s w = m
          rw [hm]
          exact hsum2
        have hloop1 : (zoneLoop hd).1 = some b := by rw [hzl]
        exact zoneFold_tie hd zonePairs (none, 0) zonePairs_sorted
          (by intro b0 hb0; cases hb0) (w, s) (mem_zonePairs ⟨h3, h6, hs⟩)
          hsum3 b hloop1
      · dsimp only
        split
        · have ht0 : (0 : ℚ) < (totalActivity hd : ℚ) := by exact_mod_cast htot
          have h100 : totalActivity hd ≤ 100 * m :=
            le_trans htle (Nat.mul_le_mul_right m (by norm_num))
          have hcast : (totalActivity hd : ℚ) ≤ 100 * (m : ℚ) := by
            exact_mod_cast h100
          refine round1_pos ?_
          rw [div_mul_eq_mul_div, le_div_iff₀ ht0]
          linarith
        · next hcond => exact absurd htot hcond
      · dsimp only
        split
        · have ht0 : (0 : ℚ) < (totalActivity hd : ℚ) := by exact_mod_cast htot
          have hcast : (m : ℚ) ≤ (totalActivity hd : ℚ) := by exact_mod_cast hmle
          refine round1_le_100 ?_
          rw [div_mul_eq_mul_div, div_le_iff₀ ht0]
          linarith
        · next hcond => exact absurd htot hcond

/-- C4, counterexample to the claim as stated: on the all-zero histogram the
code returns `null` — there is no zone carrying `percentage_of_total = 0`. -/
theorem calculateMaxParticipationZone_allZero :
    calculateMaxParticipationZone (fun _ => 0) = none := by
  have hws : ∀ p ∈ zonePairs, windowSum (fun _ => 0) p.2 p.1 = 0 := by
    intro p _
    unfold windowSum
    exact Finset.sum_eq_zero fun i _ => rfl
  unfold calculateMaxParticipationZone zoneLoop
  rw [zoneFold_zero _ zonePairs (none, 0) hws]

/-- Histogram used to instantiate the zone theorem: one post at hour 0. -/
def exHist : Fin 24 → ℕ := fun h => if h = 0 then 1 else 0

/-- Witness for the zone theorem at the concrete histogram `exHist`. -/
theorem calculateMaxParticipationZone_spec_witness :
    0 < totalActivity exHist ∧ ZoneOk exHist :=
  ⟨by decide, (calculateMaxParticipationZone_spec exHist).2 (by decide)⟩

/-! ## Relay listener: event routing
    (src/relay-listener.js against the `events` table of `sql/schema.sql`,
    whose `event_id` column carries a global `UNIQUE NOT NULL` constraint)

Pubkeys, npubs and event ids are opaque and modelled as `ℕ`; an event tag
`["p", <pubkey>]` is the pair `("p", pk)`.  `npubToHex` (nip19 decoding) is
modelled by the `hex` field stored alongside each user's `npub`. -/

/-- A Nostr event as delivered by a relay subscription. -/
structure NEvent where
  id : ℕ
  pubkey : ℕ
  kind : ℕ
  created_at : ℕ
  content : String
  tags : List (String × ℕ)
deriving Repr, DecidableEq

/-- A row of the `users` table, together with the nip19 decoding of its
`npub` (the value `npubToHex(npub)` the listener computes). -/
structure User where
  id : ℕ
  npub : ℕ
  hex : ℕ
deriving Repr, DecidableEq

/-- A row of the `events` table of `sql/schema.sql` (metadata omitted). -/
structure EventRow where
  user_id : ℕ
  event_id : ℕ
  event_type : String
  author_npub : ℕ
  content : String
  created_at : ℕ
deriving Repr, DecidableEq

/-- A row of the `engagers` table. -/
structure Engager where
  user_id : ℕ
  engager_npub : ℕ
  interactions : ℕ
  last_interaction : ℕ
deriving Repr, DecidableEq

/-- A row of the `followers` table. -/
structure FollowerRow where
  user_id : ℕ
  follower_npub : ℕ
  followed_at : ℕ
deriving Repr, DecidableEq

/-- A webhook dispatched through `webhookSender.send*Webhook`. -/
structure Webhook where
  user_id : ℕ
  wkind : String
  event_id : ℕ
deriving Repr, DecidableEq

/-- The database state touched by the listener, plus the log of webhooks
sent so far. -/
structure ListenerState where
  events : List EventRow
  engagers : List Engager
  followers : List FollowerRow
  webhooks : List Webhook
deriving Repr, DecidableEq

/-- `SELECT id FROM events WHERE event_id = $1` has a row — note: the check
is on `event_id` alone, over all tenants. -/
def hasEventId (s : ListenerState) (eid : ℕ) : Bool :=
  s.events.any fun r => r.event_id == eid

/-- The `INSERT ... ON CONFLICT (user_id, engager_npub) DO UPDATE` upsert on
the `engagers` table. -/
def upsertEngager (userId npub t : ℕ) (l : List Engager) : List Engager :=
  if l.any fun g => g.user_id == userId && g.engager_npub == npub then
    l.map fun g =>
      if g.user_id == userId && g.engager_npub == npub then
        { g with interactions := g.interactions + 1, last_interaction := t }
      else g
  else l ++ [⟨userId, npub, 1, t⟩]

/-- `processMention`: skip when a row with this `event_id` already exists
(for any tenant), otherwise insert the Event row, upsert the engager, and
send the mention webhook. -/
def processMention (e : NEvent) (userId : ℕ) (s : ListenerState) :
    ListenerState :=
  if hasEventId s e.id then s
  else
    { s with
      events := s.events ++
        [⟨userId, e.id, "mention", e.pubkey, e.content, e.created_at⟩]
      engagers := upsertEngager userId e.pubkey e.created_at s.engagers
      webhooks := s.webhooks ++ [⟨userId, "mention", e.id⟩] }

/-- `processZap`: no prior existence check — the bare `INSERT` of a
duplicate `event_id` violates the table's `UNIQUE (event_id)` constraint;
the thrown error is caught by the surrounding `try/catch`, so the handler
returns with no row written and no webhook sent. -/
def processZap (e : NEvent) (userId : ℕ) (s : ListenerState) :
    ListenerState :=
  if hasEventId s e.id then s
  else
    { s with
      events := s.events ++
        [⟨userId, e.id, "zap", e.pubkey, e.content, e.created_at⟩]
      webhooks := s.webhooks ++ [⟨userId, "zap", e.id⟩] }

/-- `processFollow`: look up the user's hex pubkey, require a matching
p-tag, skip when this follower is already recorded, else insert the
follower row and send the new-follower webhook.  No `events` row is
written. -/
def processFollow (e : NEvent) (userId : ℕ) (users : List User)
    (s : ListenerState) : ListenerState :=
  match users.find? fun u => u.id == userId with
  | none => s
  | some u =>
    if e.tags.any fun t => t.1 == "p" && t.2 == u.hex then
      if s.followers.any fun f =>
          f.user_id == userId && f.follower_npub == e.pubkey then s
      else
        { s with
          followers := s.followers ++ [⟨userId, e.pubkey, e.created_at⟩]
          webhooks := s.webhooks ++ [⟨userId, "new_follower", e.id⟩] }
    else s

/-- The subscription handlers' per-tag lookup: the registered user whose
decoded npub equals the tagged pubkey. -/
def matchUser (users : List User) (pk : ℕ) : Option User :=
  users.find? fun u => u.hex == pk

/-- The loop `for (const tag of event.tags) { if (tag[0] === 'p') ... }`
shared by the three subscription handlers, parameterized by the
per-(event, user) processor. -/
def tagFold (users : List User) (f : ℕ → ListenerState → ListenerState) :
    List (String × ℕ) → ListenerState → ListenerState
  | [], s => s
  | t :: ts, s =>
    tagFold users f ts
      (if t.1 == "p" then
        match matchUser users t.2 with
        | some u => f u.id s
        | none => s
      else s)

/-- Dispatch of a delivered event to the handler of the subscription that
matches its protocol kind (kind 1 mentions, kind 3 follows, kind 9735
zaps). -/
def routeEvent (users : List User) (e : NEvent) (s : ListenerState) :
    ListenerState :=
  if e.kind = 1 then tagFold users (processMention e) e.tags s
  else if e.kind = 3 then tagFold users (fun uid => processFollow e uid users) e.tags s
  else if e.kind = 9735 then tagFold users (processZap e) e.tags s
  else s

/-- `n` deliveries of the same event (e.g. from several relays). -/
def observeN (users : List User) (e : NEvent) : ℕ → ListenerState → ListenerState
  | 0, s => s
  | n + 1, s => observeN users e n (routeEvent users e s)

/-- The empty database. -/
def emptyListener : ListenerState := ⟨[], [], [], []⟩

/-! ### Routing lemmas -/

/-- The shape shared by `processMention` and `processZap`: skip everything
when a row with this event id exists (for any tenant); otherwise append one
`events` row and send one webhook. -/
structure InsertsOnce (e : NEvent) (f : ℕ → ListenerState → ListenerState)
    (row : ℕ → EventRow) (wh : ℕ → Webhook) : Prop where
  skip : ∀ uid s, hasEventId s e.id = true → f uid s = s
  ins_events : ∀ uid s, hasEventId s e.id = false →
    (f uid s).events = s.events ++ [row uid]
  ins_webhooks : ∀ uid s, hasEventId s e.id = false →
    (f uid s).webhooks = s.webhooks ++ [wh uid]
  row_id : ∀ uid, (row uid).event_id = e.id
  row_user : ∀ uid, (row uid).user_id = uid
  wh_id : ∀ uid, (wh uid).event_id = e.id
  wh_user : ∀ uid, (wh uid).user_id = uid

lemma processMention_inserts (e : NEvent) :
    InsertsOnce e (processMention e)
      (fun uid => ⟨uid, e.id, "mention", e.pubkey, e.content, e.created_at⟩)
      (fun uid => ⟨uid, "mention", e.id⟩) := by
  constructor <;> intro uid <;>
    first
      | exact ⟨rfl, rfl⟩
      | (intro s h; simp [processMention, h])
      | rfl

lemma processZap_inserts (e : NEvent) :
    InsertsOnce e (processZap e)
      (fun uid => ⟨uid, e.id, "zap", e.pubkey, e.content, e.created_at⟩)
      (fun uid => ⟨uid, "zap", e.id⟩) := by
  constructor <;> intro uid <;>
    first
      | exact ⟨rfl, rfl⟩
      | (intro s h; simp [processZap, h])
      | rfl

lemma processFollow_events (e : NEvent) (uid : ℕ) (users : List User)
    (s : ListenerState) : (processFollow e uid users s).events = s.events := by
  unfold processFollow
  split
  · rfl
  · split
    · split <;> rfl
    · rfl

lemma tagFold_skip {e : NEvent} {users : List User}
    {f : ℕ → ListenerState → ListenerState} {row : ℕ → EventRow}
    {wh : ℕ → Webhook} (hf : InsertsOnce e f row wh) :
    ∀ (tags : List (String × ℕ)) (s : ListenerState),
      hasEventId s e.id = true → tagFold users f tags s = s := by
  intro tags
  induction tags with
  | nil => intro s _; rfl
  | cons t ts ih =>
    intro s h
    unfold tagFold
    have hstep : (if t.1 == "p" then
        match matchUser users t.2 with
        | some u => f u.id s
        | none => s
      else s) = s := by
      rcases hp : (t.1 == "p") with - | -
      · simp
      · simp only [if_pos rfl]
        rcases matchUser users t.2 with - | u
        · rfl
        · exact hf.skip u.id s h
    rw [hstep]
    exact ih s h

lemma hasEventId_false_not_mem {s : ListenerState} {eid : ℕ}
    (h : hasEventId s eid = false) :
    eid ∉ s.events.map EventRow.event_id := by
  intro hmem
  obtain ⟨r, hr, hreq⟩ := List.mem_map.1 hmem
  have := List.any_eq_false.1 h r hr
  simp [hreq] at this

lemma hasEventId_false_countP {s : ListenerState} {eid : ℕ}
    (h : hasEventId s eid = false) :
    (s.events.countP fun r => r.event_id == eid) = 0 := by
  refine List.countP_eq_zero.2 fun r hr => ?_
  have := List.any_eq_false.1 h r hr
  simpa using this

lemma tagFold_insert {e : NEvent} {users : List User}
    {f : ℕ → ListenerState → ListenerState} {row : ℕ → EventRow}
    {wh : ℕ → Webhook} (hf : InsertsOnce e f row wh) (u : User) :
    ∀ (tags : List (String × ℕ)) (s : ListenerState),
      hasEventId s e.id = false →
      (∀ t ∈ tags, t.1 = "p" →
        matchUser users t.2 = none ∨ matchUser users t.2 = some u) →
      (∃ t ∈ tags, t.1 = "p" ∧ matchUser users t.2 = some u) →
      (tagFold users f tags s).events = s.events ++ [row u.id] ∧
      (tagFold users f tags s).webhooks = s.webhooks ++ [wh u.id] := by
  intro tags
  induction tags with
  | nil =>
    intro s _ _ hsome
    obtain ⟨t, ht, -⟩ := hsome
    cases ht
  | cons t ts ih =>
    intro s hfresh honly hsome
    unfold tagFold
    by_cases hp : t.1 = "p"
    · have hpb : (t.1 == "p") = true := beq_iff_eq.2 hp
      rw [if_pos hpb]
      rcases hm : matchUser users t.2 with - | v
      · dsimp only
        refine ih s hfresh (fun q hq => honly q (List.mem_cons_of_mem _ hq)) ?_
        obtain ⟨t0, ht0, hp0, hm0⟩ := hsome
        rcases List.mem_cons.1 ht0 with rfl | ht0tail
        · rw [hm] at hm0; cases hm0
        · exact ⟨t0, ht0tail, hp0, hm0⟩
      · dsimp only
        have hv : v = u := by
          rcases honly t (List.mem_cons_self _ _) hp with hno | hyes
          · rw [hm] at hno; cases hno
          · rw [hm] at hyes; exact Option.some_injective _ hyes
        subst hv
        have hev := hf.ins_events v.id s hfresh
        have hwh := hf.ins_webhooks v.id s hfresh
        have htrue : hasEventId (f v.id s) e.id = true := by
          simp only [hasEventId, List.any_eq_true]
          refine ⟨row v.id, ?_, by simp [hf.row_id v.id]⟩
          rw [hev]
          exact List.mem_append_right _ (by simp)
        rw [tagFold_skip hf ts _ htrue]
        exact ⟨hev, hwh⟩
    · have hpb : ¬((t.1 == "p") = true) := by simp [hp]
      rw [if_neg hpb]
      refine ih s hfresh (fun q hq => honly q (List.mem_cons_of_mem _ hq)) ?_
      obtain ⟨t0, ht0, hp0, hm0⟩ := hsome
      rcases List.mem_cons.1 ht0 with rfl | ht0tail
      · exact absurd hp0 hp
      · exact ⟨t0, ht0tail, hp0, hm0⟩

lemma tagFold_exists {e : NEvent} {users : List User}
    {f : ℕ → ListenerState → ListenerState} {row : ℕ → EventRow}
    {wh : ℕ → Webhook} (hf : InsertsOnce e f row wh) :
    ∀ (tags : List (String × ℕ)) (s : ListenerState),
      hasEventId s e.id = false →
      (∃ t ∈ tags, t.1 = "p" ∧ (matchUser users t.2).isSome) →
      ∃ uid, (tagFold users f tags s).events = s.events ++ [row uid] ∧
        (tagFold users f tags s).webhooks = s.webhooks ++ [wh uid] := by
  intro tags
  induction tags with
  | nil =>
    intro s _ hsome
    obtain ⟨t, ht, -⟩ := hsome
    cases ht
  | cons t ts ih =>
    intro s hfresh hsome
    unfold tagFold
    by_cases hp : t.1 = "p"
    · have hpb : (t.1 == "p") = true := beq_iff_eq.2 hp
      rw [if_pos hpb]
      rcases hm : matchUser users t.2 with - | v
      · dsimp only
        refine ih s hfresh ?_
        obtain ⟨t0, ht0, hp0, hm0⟩ := hsome
        rcases List.mem_cons.1 ht0 with rfl | ht0tail
        · rw [hm] at hm0; cases hm0
        · exact ⟨t0, ht0tail, hp0, hm0⟩
      · dsimp only
        have hev := hf.ins_events v.id s hfresh
        have hwh := hf.ins_webhooks v.id s hfresh
        have htrue : hasEventId (f v.id s) e.id = true := by
          simp only [hasEventId, List.any_eq_true]
          refine ⟨row v.id, ?_, by simp [hf.row_id v.id]⟩
          rw [hev]
          exact List.mem_append_right _ (by simp)
        rw [tagFold_skip hf ts _ htrue]
        exact ⟨v.id, hev, hwh⟩
    · have hpb : ¬((t.1 == "p") = true) := by simp [hp]
      rw [if_neg hpb]
      refine ih s hfresh ?_
      obtain ⟨t0, ht0, hp0, hm0⟩ := hsome
      rcases List.mem_cons.1 ht0 with rfl | ht0tail
      · exact absurd hp0 hp
      · exact ⟨t0, ht0tail, hp0, hm0⟩

lemma tagFold_nodup {e : NEvent} {users : List User}
    {f : ℕ → ListenerState → ListenerState} {row : ℕ → EventRow}
    {wh : ℕ → Webhook} (hf : InsertsOnce e f row wh) :
    ∀ (tags : List (String × ℕ)) (s : ListenerState),
      (s.events.map EventRow.event_id).Nodup →
      ((tagFold users f tags s).events.map EventRow.event_id).Nodup := by
  intro tags
  induction tags with
  | nil => intro s h; exact h
  | cons t ts ih =>
    intro s h
    unfold tagFold
    refine ih _ ?_
    by_cases hp : t.1 = "p"
    · have hpb : (t.1 == "p") = true := beq_iff_eq.2 hp
      rw [if_pos hpb]
      rcases hm : matchUser users t.2 with - | v
      · exact h
      · dsimp only
        rcases hfr : hasEventId s e.id with - | -
        · have hev := hf.ins_events v.id s hfr
          rw [hev, List.map_append]
          have hnot : e.id ∉ s.events.map EventRow.event_id :=
            hasEventId_false_not_mem hfr
          simp only [List.map_cons, List.map_nil, hf.row_id v.id]
          rw [List.nodup_append]
          refine ⟨h, List.nodup_singleton _, ?_⟩
          intro a ha hb
          rw [List.mem_singleton.1 hb] at ha
          exact hnot ha
        · rw [hf.skip v.id s hfr]
          exact h
    · have hpb : ¬((t.1 == "p") = true) := by simp [hp]
      rw [if_neg hpb]
      exact h

lemma tagFold_events_const {users : List User}
    {f : ℕ → ListenerState → ListenerState}
    (hfe : ∀ uid s, (f uid s).events = s.events) :
    ∀ (tags : List (String × ℕ)) (s : ListenerState),
      (tagFold users f tags s).events = s.events := by
  intro tags
  induction tags with
  | nil => intro s; rfl
  | cons t ts ih =>
    intro s
    unfold tagFold
    rw [ih]
    by_cases hp : t.1 = "p"
    · have hpb : (t.1 == "p") = true := beq_iff_eq.2 hp
      rw [if_pos hpb]
      rcases hm : matchUser users t.2 with - | v
      · rfl
      · exact hfe v.id s
    · have hpb : ¬((t.1 == "p") = true) := by simp [hp]
      rw [if_neg hpb]

lemma routeEvent_skip {users : List User} {e : NEvent} {s : ListenerState}
    (hkind : e.kind = 1 ∨ e.kind = 9735) (h : hasEventId s e.id = true) :
    routeEvent users e s = s := by
  unfold routeEvent
  rcases hkind with hk | hk
  · rw [if_pos hk]
    exact tagFold_skip (processMention_inserts e) e.tags s h
  · rw [if_neg (by omega), if_neg (by omega), if_pos hk]
    exact tagFold_skip (processZap_inserts e) e.tags s h

lemma routeEvent_nodup {users : List User} {e : NEvent} {s : ListenerState}
    (h : (s.events.map EventRow.event_id).Nodup) :
    ((routeEvent users e s).events.map EventRow.event_id).Nodup := by
  unfold routeEvent
  by_cases h1 : e.kind = 1
  · rw [if_pos h1]
    exact tagFold_nodup (processMention_inserts e) e.tags s h
  · rw [if_neg h1]
    by_cases h3 : e.kind = 3
    · rw [if_pos h3]
      rw [tagFold_events_const (fun uid s0 => processFollow_events e uid users s0)
        e.tags s]
      exact h
    · rw [if_neg h3]
      by_cases h9 : e.kind = 9735
      · rw [if_pos h9]
        exact tagFold_nodup (processZap_inserts e) e.tags s h
      · rw [if_neg h9]
        exact h

lemma observeN_skip {users : List User} {e : NEvent}
    (hkind : e.kind = 1 ∨ e.kind = 9735) :
    ∀ (n : ℕ) (s : ListenerState), hasEventId s e.id = true →
      observeN users e n s = s := by
  intro n
  induction n with
  | zero => intro s _; rfl
  | succ k ih =>
    intro s h
    unfold observeN
    rw [routeEvent_skip hkind h]
    exact ih s h

lemma observe_once_generic {users : List User} {e : NEvent}
    {f : ℕ → ListenerState → ListenerState} {row : ℕ → EventRow}
    {wh : ℕ → Webhook} (hf : InsertsOnce e f row wh)
    (hkind : e.kind = 1 ∨ e.kind = 9735)
    (hroute : ∀ s, routeEvent users e s = tagFold users f e.tags s)
    (u : User) (s : ListenerState) (k : ℕ)
    (honly : ∀ t ∈ e.tags, t.1 = "p" →
      matchUser users t.2 = none ∨ matchUser users t.2 = some u)
    (hsome : ∃ t ∈ e.tags, t.1 = "p" ∧ matchUser users t.2 = some u)
    (hfresh : hasEventId s e.id = false) :
    (observeN users e (k + 1) s).events = s.events ++ [row u.id] ∧
    (observeN users e (k + 1) s).webhooks = s.webhooks ++ [wh u.id] := by
  obtain ⟨hev, hwh⟩ := tagFold_insert hf u e.tags s hfresh honly hsome
  have h1 : routeEvent users e s = tagFold users f e.tags s := hroute s
  have htrue : hasEventId (tagFold users f e.tags s) e.id = true := by
    simp only [hasEventId, List.any_eq_true]
    refine ⟨row u.id, ?_, by simp [hf.row_id u.id]⟩
    rw [hev]
    exact List.mem_append_right _ (by simp)
  show (observeN users e k (routeEvent users e s)).events = _ ∧
    (observeN users e k (routeEvent users e s)).webhooks = _
  rw [h1, observeN_skip hkind k _ htrue]
  exact ⟨hev, hwh⟩

/-- C2 (amended): for an event of kind mention (1) or zap (9735) whose
matching p-tags all resolve to the single tenant `u`, delivering it `n ≥ 1`
times to a state holding no row and no webhook for its event id leaves
exactly one Event row for (u, event id) and exactly one webhook for it.
(The claim as frozen fails when an earlier tenant of the same event was
processed first, and for follow events, which store no Event row; see the
counterexample.) -/
theorem observe_event_once (users : List User) (e : NEvent) (u : User)
    (s : ListenerState) (n : ℕ)
    (hkind : e.kind = 1 ∨ e.kind = 9735)
    (honly : ∀ t ∈ e.tags, t.1 = "p" →
      matchUser users t.2 = none ∨ matchUser users t.2 = some u)
    (hsome : ∃ t ∈ e.tags, t.1 = "p" ∧ matchUser users t.2 = some u)
    (hfresh : hasEventId s e.id = false)
    (hwfresh : (s.webhooks.countP fun w => w.event_id == e.id) = 0)
    (hn : 1 ≤ n) :
    ((observeN users e n s).events.countP fun r => r.event_id == e.id) = 1 ∧
    (∀ r ∈ (observeN users e n s).events,
      r.event_id = e.id → r.user_id = u.id) ∧
    ((observeN users e n s).webhooks.countP fun w => w.event_id == e.id) = 1 ∧
    (∀ w ∈ (observeN users e n s).webhooks,
      w.event_id = e.id → w.user_id = u.id) := by
  obtain ⟨k, rfl⟩ : ∃ k, n = k + 1 := ⟨n - 1, by omega⟩
  have hold : ∀ r ∈ s.events, ¬(r.event_id = e.id) := by
    intro r hr hre
    have := List.any_eq_false.1 hfresh r hr
    simp [hre] at this
  have holdw : ∀ w ∈ s.webhooks, ¬(w.event_id = e.id) := by
    intro w hw hwe
    have := List.countP_eq_zero.1 hwfresh w hw
    simp [hwe] at this
  have key : ∃ (row : ℕ → EventRow) (wh : ℕ → Webhook),
      (∀ uid, (row uid).event_id = e.id) ∧ (∀ uid, (row uid).user_id = uid) ∧
      (∀ uid, (wh uid).event_id = e.id) ∧ (∀ uid, (wh uid).user_id = uid) ∧
      (observeN users e (k + 1) s).events = s.events ++ [row u.id] ∧
      (observeN users e (k + 1) s).webhooks = s.webhooks ++ [wh u.id] := by
    rcases hkind with hk | hk
    · have hroute : ∀ s0, routeEvent users e s0 =
          tagFold users (processMention e) e.tags s0 := by
        intro s0
        unfold routeEvent
        rw [if_pos hk]
      obtain ⟨h1, h2⟩ := observe_once_generic (processMention_inserts e)
        (Or.inl hk) hroute u s k honly hsome hfresh
      exact ⟨_, _, (processMention_inserts e).row_id,
        (processMention_inserts e).row_user, (processMention_inserts e).wh_id,
        (processMention_inserts e).wh_user, h1, h2⟩
    · have hroute : ∀ s0, routeEvent users e s0 =
          tagFold users (processZap e) e.tags s0 := by
        intro s0
        unfold routeEvent
        rw [if_neg (by omega), if_neg (by omega), if_pos hk]
      obtain ⟨h1, h2⟩ := observe_once_generic (processZap_inserts e)
        (Or.inr hk) hroute u s k honly hsome hfresh
      exact ⟨_, _, (processZap_inserts e).row_id,
        (processZap_inserts e).row_user, (processZap_inserts e).wh_id,
        (processZap_inserts e).wh_user, h1, h2⟩
  obtain ⟨row, wh, hrid, hruser, hwid, hwuser, hev, hwh⟩ := key
  refine ⟨?_, ?_, ?_, ?_⟩
  · rw [hev, List.countP_append, hasEventId_false_countP hfresh]
    simp [List.countP_cons, hrid u.id]
  · intro r hr hre
    rw [hev] at hr
    rcases List.mem_append.1 hr with hr0 | hr1
    · exact absurd hre (hold r hr0)
    · rw [List.mem_singleton.1 hr1, hruser u.id]
  · rw [hwh, List.countP_append, hwfresh]
    simp [List.countP_cons, hwid u.id]
  · intro w hw hwe
    rw [hwh] at hw
    rcases List.mem_append.1 hw with hw0 | hw1
    · exact absurd hwe (holdw w hw0)
    · rw [List.mem_singleton.1 hw1, hwuser u.id]

/-- C1 (amended): event ids are unique globally, not per (tenant, event id):
routing any event preserves distinctness of the stored event ids — in
particular the same event id is never stored twice, neither for one tenant
nor across tenants — and a mention event whose id is not yet stored and
that tags at least one registered tenant produces exactly one Event row
(not one row per tagged tenant). -/
theorem routeEvent_eventId_unique (users : List User) (e : NEvent)
    (s : ListenerState) (hnd : (s.events.map EventRow.event_id).Nodup) :
    ((routeEvent users e s).events.map EventRow.event_id).Nodup ∧
    (e.kind = 1 → hasEventId s e.id = false →
      (∃ t ∈ e.tags, t.1 = "p" ∧ (matchUser users t.2).isSome) →
      ((routeEvent users e s).events.countP fun r => r.event_id == e.id) = 1) := by
  refine ⟨routeEvent_nodup hnd, ?_⟩
  intro hk hfresh hsome
  unfold routeEvent
  rw [if_pos hk]
  obtain ⟨uid, hev, -⟩ :=
    tagFold_exists (processMention_inserts e) e.tags s hfresh hsome
  rw [hev, List.countP_append, hasEventId_false_countP hfresh]
  simp [List.countP_cons]

/-- Two registered tenants whose pubkeys both appear as p-tags of one
mention event. -/
def twoUsers : List User := [⟨1, 101, 201⟩, ⟨2, 102, 202⟩]

/-- A mention (kind 1) event targeting both tenants of `twoUsers`. -/
def twoTenantEvent : NEvent := ⟨500, 300, 1, 1000, "hi", [("p", 201), ("p", 202)]⟩

/-- C1, counterexample to the claim as stated: ingesting one protocol event
that targets two distinct tenants stores ONE Event row (for tenant 1), not
two — the `SELECT ... WHERE event_id = $1` check and the global
`UNIQUE (event_id)` constraint deduplicate across tenants. -/
theorem twoTenantEvent_single_row :
    ((routeEvent twoUsers twoTenantEvent emptyListener).events.map
      fun r => (r.user_id, r.event_id)) = [(1, 500)] := by decide

/-- A single registered tenant. -/
def oneUser : List User := [⟨5, 105, 205⟩]

/-- A mention event targeting only the tenant of `oneUser`. -/
def oneTenantEvent : NEvent := ⟨700, 320, 1, 100, "hey", [("p", 205)]⟩

/-- Witness for the uniqueness theorem at a concrete single-tenant mention. -/
theorem routeEvent_eventId_unique_witness :
    ((routeEvent oneUser oneTenantEvent emptyListener).events.map
      EventRow.event_id).Nodup ∧
    ((routeEvent oneUser oneTenantEvent emptyListener).events.countP
      fun r => r.event_id == oneTenantEvent.id) = 1 :=
  ⟨(routeEvent_eventId_unique oneUser oneTenantEvent emptyListener
      (by decide)).1,
   (routeEvent_eventId_unique oneUser oneTenantEvent emptyListener
      (by decide)).2 rfl (by decide) (by decide)⟩

/-- Two registered tenants both tagged by one zap receipt. -/
def zapUsers : List User := [⟨1, 111, 211⟩, ⟨2, 112, 212⟩]

/-- A zap receipt (kind 9735) targeting both tenants of `zapUsers`. -/
def zapTwoTenantEvent : NEvent :=
  ⟨600, 310, 9735, 2000, "", [("p", 211), ("p", 212)]⟩

/-- C2, counterexample to the claim as stated: the router observes a zap
event with id 600 targeting tenant 2 twice (two deliveries, and tenant 2's
pubkey is p-tagged and registered), yet afterwards there is NO Event row for
(tenant 2, 600) and NO webhook for tenant 2 — the row went to tenant 1,
whose p-tag is processed first. -/
theorem zapTwoTenant_secondTenant_starved :
    ("p", 212) ∈ zapTwoTenantEvent.tags ∧
    matchUser zapUsers 212 = some ⟨2, 112, 212⟩ ∧
    ((observeN zapUsers zapTwoTenantEvent 2 emptyListener).events.countP
      fun r => r.user_id == 2 && r.event_id == 600) = 0 ∧
    ((observeN zapUsers zapTwoTenantEvent 2 emptyListener).webhooks.countP
      fun w => w.user_id == 2) = 0 := by decide

/-- The single tenant of the C2 witness scenario. -/
def zapSoloUser : User := ⟨9, 109, 209⟩

/-- Registry holding only `zapSoloUser`. -/
def zapOneUser : List User := [zapSoloUser]

/-- A zap receipt targeting only `zapSoloUser`. -/
def zapSoloEvent : NEvent := ⟨800, 330, 9735, 3000, "", [("p", 209)]⟩

/-- Witness for the idempotency theorem: the zap delivered twice yields one
row and one webhook. -/
theorem observe_event_once_witness :
    ((observeN zapOneUser zapSoloEvent 2 emptyListener).events.countP
      fun r => r.event_id == zapSoloEvent.id) = 1 ∧
    (∀ r ∈ (observeN zapOneUser zapSoloEvent 2 emptyListener).events,
      r.event_id = zapSoloEvent.id → r.user_id = zapSoloUser.id) ∧
    ((observeN zapOneUser zapSoloEvent 2 emptyListener).webhooks.countP
      fun w => w.event_id == zapSoloEvent.id) = 1 ∧
    (∀ w ∈ (observeN zapOneUser zapSoloEvent 2 emptyListener).webhooks,
      w.event_id = zapSoloEvent.id → w.user_id = zapSoloUser.id) :=
  observe_event_once zapOneUser zapSoloEvent zapSoloUser emptyListener 2
    (Or.inr rfl) (by decide) (by decide) (by decide) (by decide) (by omega)

/-- Histogram used to instantiate the peak-hours theorem: count = hour. -/
def exPeak : Fin 24 → ℕ := fun h => (h : ℕ)

/-- Witness for the peak-hours theorem at `exPeak`: every peak hour is in
range, and the count at hour 23 (a peak hour) dominates the count at hour 5
(not a peak hour). -/
theorem peakHours_spec_witness :
    (∀ h ∈ peakHours exPeak, h < 24) ∧
    exPeak 5 ≤ histAt exPeak 23 :=
  ⟨(peakHours_spec exPeak).1,
   (peakHours_spec exPeak).2.2.1 23 (by decide) 5 (by decide)⟩

/-! ## Timing analytics: hourly aggregation
    (src/timing-analytics.js, `aggregateHourlyActivity`)

The three SQL statements each `INSERT ... SELECT hour_gmt, COUNT(*) ...
GROUP BY hour_gmt ON CONFLICT (user_id, activity_type, hour_gmt,
window_date) DO UPDATE SET activity_count = EXCLUDED.activity_count`.
`NOW() - INTERVAL` is passed in as `cutoff`; `CURRENT_DATE` as `today`;
timestamps are UNIX seconds and `EXTRACT(HOUR FROM created_at)` is
`created_at / 3600 % 24`. -/

/-- A row of the `post_activity` table. -/
structure PARow where
  user_id : ℕ
  author_npub : ℕ
  author_type : String
  note_id : ℕ
  posted_at : ℕ
  hour_gmt : ℕ
deriving Repr, DecidableEq

/-- A row of the `network_activity` table. -/
structure NARow where
  user_id : ℕ
  activity_type : String
  hour_gmt : ℕ
  activity_count : ℕ
  window_date : ℕ
deriving Repr, DecidableEq

/-- The conflict target of the upserts: the unique index on
(user_id, activity_type, hour_gmt, window_date). -/
def naKey (r : NARow) : ℕ × String × ℕ × ℕ :=
  (r.user_id, r.activity_type, r.hour_gmt, r.window_date)

/-- `ON CONFLICT ... DO UPDATE SET activity_count = EXCLUDED.activity_count`:
overwrite the count of the row with this key, or append the new row. -/
def upsertNA : List NARow → NARow → List NARow
  | [], row => [row]
  | r :: rs, row =>
    if naKey r = naKey row then
      { r with activity_count := row.activity_count } :: rs
    else r :: upsertNA rs row

/-- `SELECT ... WHERE <key columns> = k`. -/
def lookupNA (na : List NARow) (k : ℕ × String × ℕ × ℕ) : Option NARow :=
  na.find? fun r => decide (naKey r = k)

/-- `GROUP BY hour_gmt` with `COUNT(*)`: one `(hour, count)` group per hour
value present in the source rows. -/
def groupCounts (hs : List ℕ) : List (ℕ × ℕ) :=
  hs.dedup.map fun h => (h, hs.count h)

/-- One of the three aggregation statements: upsert every nonempty hourly
group for this (tenant, activity type, today). -/
def aggregateKind (u : ℕ) (atype : String) (hs : List ℕ) (today : ℕ)
    (na : List NARow) : List NARow :=
  (groupCounts hs).foldl (fun acc g => upsertNA acc ⟨u, atype, g.1, g.2, today⟩) na

/-- Hours of the `post_activity` rows selected by the follower statement:
`WHERE user_id = $1 AND author_type = 'follower' AND posted_at > cutoff`. -/
def followerHours (u cutoff : ℕ) (pa : List PARow) : List ℕ :=
  (pa.filter fun r =>
    r.user_id == u && r.author_type == "follower" && decide (cutoff < r.posted_at)).map
    PARow.hour_gmt

/-- Hours selected by the following statement. -/
def followingHours (u cutoff : ℕ) (pa : List PARow) : List ℕ :=
  (pa.filter fun r =>
    r.user_id == u && r.author_type == "following" && decide (cutoff < r.posted_at)).map
    PARow.hour_gmt

/-- `EXTRACT(HOUR FROM created_at AT TIME ZONE 'UTC')` for UNIX seconds. -/
def evHour (r : EventRow) : ℕ := r.created_at / 3600 % 24

/-- Hours selected by the engagement statement — every `events` row of the
tenant in the window, regardless of event type. -/
def engagementHours (u cutoff : ℕ) (ev : List EventRow) : List ℕ :=
  (ev.filter fun r => r.user_id == u && decide (cutoff < r.created_at)).map evHour

/-- `aggregateHourlyActivity`: the three statements in program order. -/
def aggregateHourlyActivity (u cutoff today : ℕ) (pa : List PARow)
    (ev : List EventRow) (na : List NARow) : List NARow :=
  aggregateKind u "engagement" (engagementHours u cutoff ev) today
    (aggregateKind u "following_post" (followingHours u cutoff pa) today
      (aggregateKind u "follower_post" (followerHours u cutoff pa) today na))

lemma naKey_update (r : NARow) (c : ℕ) :
    naKey { r with activity_count := c } = naKey r := rfl

lemma upsertNA_lookup_self (na : List NARow) (row : NARow) :
    lookupNA (upsertNA na row) (naKey row) = some row := by
  induction na with
  | nil => simp [upsertNA, lookupNA, List.find?]
  | cons r rs ih =>
    by_cases h : naKey r = naKey row
    · have hrow : ({ r with activity_count := row.activity_count } : NARow) = row := by
        rcases r with ⟨a1, a2, a3, a4, a5⟩
        rcases row with ⟨b1, b2, b3, b4, b5⟩
        simp only [naKey, Prod.mk.injEq] at h
        simp_all
      unfold upsertNA
      rw [if_pos h]
      simp [lookupNA, List.find?, hrow]
    · unfold upsertNA
      rw [if_neg h]
      simp only [lookupNA, List.find?] at ih ⊢
      rw [decide_eq_false h]
      exact ih

lemma upsertNA_lookup_other (na : List NARow) (row : NARow)
    (k : ℕ × String × ℕ × ℕ) (hk : k ≠ naKey row) :
    lookupNA (upsertNA na row) k = lookupNA na k := by
  induction na with
  | nil =>
    simp only [upsertNA, lookupNA, List.find?]
    rw [decide_eq_false fun h => hk (by rw [← h])]
  | cons r rs ih =>
    by_cases h : naKey r = naKey row
    · unfold upsertNA
      rw [if_pos h]
      have hne : naKey r ≠ k := fun hc => hk (by rw [← hc, h])
      simp only [lookupNA, List.find?, naKey_update]
      rw [decide_eq_false hne]
    · unfold upsertNA
      rw [if_neg h]
      simp only [lookupNA, List.find?] at ih ⊢
      by_cases h2 : naKey r = k
      · rw [decide_eq_true h2]
      · rw [decide_eq_false h2]
        exact ih

lemma aggregateKind_lookup_other (u : ℕ) (atype : String) (today : ℕ)
    (k : ℕ × String × ℕ × ℕ) :
    ∀ (gs : List (ℕ × ℕ)) (na : List NARow),
      (∀ g ∈ gs, k ≠ (u, atype, g.1, today)) →
      lookupNA (gs.foldl (fun acc g => upsertNA acc ⟨u, atype, g.1, g.2, today⟩) na) k =
        lookupNA na k := by
  intro gs
  induction gs with
  | nil => intro na _; rfl
  | cons g gs ih =>
    intro na hk
    rw [List.foldl_cons]
    rw [ih _ fun g0 hg0 => hk g0 (List.mem_cons_of_mem _ hg0)]
    exact upsertNA_lookup_other na _ k (hk g (List.mem_cons_self _ _))

lemma aggregateKind_lookup_hit (u : ℕ) (atype : String) (today : ℕ) :
    ∀ (gs : List (ℕ × ℕ)) (na : List NARow) (h c : ℕ),
      (gs.map Prod.fst).Nodup → (h, c) ∈ gs →
      lookupNA (gs.foldl (fun acc g => upsertNA acc ⟨u, atype, g.1, g.2, today⟩) na)
        (u, atype, h, today) = some ⟨u, atype, h, c, today⟩ := by
  intro gs
  induction gs with
  | nil => intro na h c _ hmem; cases hmem
  | cons g gs ih =>
    intro na h c hnd hmem
    rw [List.foldl_cons]
    rcases List.mem_cons.1 hmem with rfl | htail
    · have hnd3 : (h, c).1 ∉ gs.map Prod.fst ∧ (gs.map Prod.fst).Nodup := by
        rw [List.map_cons, List.nodup_cons] at hnd
        exact hnd
      have hrest : ∀ g0 ∈ gs, ((u, atype, h, today) : ℕ × String × ℕ × ℕ) ≠
          (u, atype, g0.1, today) := by
        intro g0 hg0 hc
        have hfst : h = g0.1 := by
          simpa using congrArg (fun x => x.2.2.1) hc
        refine hnd3.1 ?_
        show h ∈ gs.map Prod.fst
        rw [hfst]
        exact List.mem_map.2 ⟨g0, hg0, rfl⟩
      rw [aggregateKind_lookup_other u atype today _ gs _ hrest]
      exact upsertNA_lookup_self na ⟨u, atype, h, c, today⟩
    · have hnd3 : (gs.map Prod.fst).Nodup := by
        rw [List.map_cons, List.nodup_cons] at hnd
        exact hnd.2
      exact ih _ h c hnd3 htail

lemma groupCounts_fst_nodup (hs : List ℕ) :
    ((groupCounts hs).map Prod.fst).Nodup := by
  unfold groupCounts
  rw [List.map_map]
  have : (Prod.fst ∘ fun h => (h, hs.count h)) = id := rfl
  rw [this, List.map_id]
  exact hs.nodup_dedup

lemma groupCounts_mem {hs : List ℕ} {h : ℕ} (hp : 0 < hs.count h) :
    (h, hs.count h) ∈ groupCounts hs := by
  unfold groupCounts
  exact List.mem_map.2 ⟨h, List.mem_dedup.2 (List.count_pos_iff.1 hp), rfl⟩

lemma groupCounts_not_mem {hs : List ℕ} {h : ℕ} (hz : hs.count h = 0) :
    ∀ g ∈ groupCounts hs, g.1 ≠ h := by
  intro g hg hc
  obtain ⟨h0, hh0, rfl⟩ := List.mem_map.1 hg
  have hpos : 0 < hs.count h0 := List.count_pos_iff.2 (List.mem_dedup.1 hh0)
  have hc2 : h0 = h := by simpa using hc
  rw [hc2] at hpos
  omega

lemma aggregateKind_spec (u : ℕ) (atype : String) (hs : List ℕ) (today : ℕ)
    (na : List NARow) (h : ℕ) :
    (0 < hs.count h →
      lookupNA (aggregateKind u atype hs today na) (u, atype, h, today) =
        some ⟨u, atype, h, hs.count h, today⟩) ∧
    (hs.count h = 0 →
      lookupNA (aggregateKind u atype hs today na) (u, atype, h, today) =
        lookupNA na (u, atype, h, today)) := by
  constructor
  · intro hp
    exact aggregateKind_lookup_hit u atype today (groupCounts hs) na h _
      (groupCounts_fst_nodup hs) (groupCounts_mem hp)
  · intro hz
    refine aggregateKind_lookup_other u atype today _ (groupCounts hs) na ?_
    intro g hg hc
    exact groupCounts_not_mem hz g hg (by
      simpa using (congrArg (fun x => x.2.2.1) hc).symm)

lemma aggregateKind_lookup_other_type (u : ℕ) (atype atype2 : String)
    (hs : List ℕ) (today : ℕ) (na : List NARow) (h : ℕ)
    (hne : atype2 ≠ atype) :
    lookupNA (aggregateKind u atype hs today na) (u, atype2, h, today) =
      lookupNA na (u, atype2, h, today) := by
  refine aggregateKind_lookup_other u atype today _ (groupCounts hs) na ?_
  intro g _ hc
  exact hne (by simpa using congrArg (fun x => x.2.1) hc)

/-- C5 (amended): after an aggregation run, for each kind the stored
(tenant, kind, hour, today) count equals the number of source rows with
that hour over the window — but only for hours that currently have at least
one source row; an hour whose current source-row count is zero is not
written at all, so its row (possibly stale from an earlier run today) is
left exactly as it was. -/
theorem aggregateHourlyActivity_spec (u cutoff today : ℕ) (pa : List PARow)
    (ev : List EventRow) (na : List NARow) (h : ℕ) :
    ((0 < (followerHours u cutoff pa).count h →
      lookupNA (aggregateHourlyActivity u cutoff today pa ev na)
          (u, "follower_post", h, today) =
        some ⟨u, "follower_post", h, (followerHours u cutoff pa).count h, today⟩) ∧
     ((followerHours u cutoff pa).count h = 0 →
      lookupNA (aggregateHourlyActivity u cutoff today pa ev na)
          (u, "follower_post", h, today) =
        lookupNA na (u, "follower_post", h, today))) ∧
    ((0 < (followingHours u cutoff pa).count h →
      lookupNA (aggregateHourlyActivity u cutoff today pa ev na)
          (u, "following_post", h, today) =
        some ⟨u, "following_post", h, (followingHours u cutoff pa).count h, today⟩) ∧
     ((followingHours u cutoff pa).count h = 0 →
      lookupNA (aggregateHourlyActivity u cutoff today pa ev na)
          (u, "following_post", h, today) =
        lookupNA na (u, "following_post", h, today))) ∧
    ((0 < (engagementHours u cutoff ev).count h →
      lookupNA (aggregateHourlyActivity u cutoff today pa ev na)
          (u, "engagement", h, today) =
        some ⟨u, "engagement", h, (engagementHours u cutoff ev).count h, today⟩) ∧
     ((engagementHours u cutoff ev).count h = 0 →
      lookupNA (aggregateHourlyActivity u cutoff today pa ev na)
          (u, "engagement", h, today) =
        lookupNA na (u, "engagement", h, today))) := by
  unfold aggregateHourlyActivity
  refine ⟨⟨?_, ?_⟩, ⟨?_, ?_⟩, ⟨?_, ?_⟩⟩
  · intro hp
    rw [aggregateKind_lookup_other_type u "engagement" "follower_post" _ today _ h
      (by decide)]
    rw [aggregateKind_lookup_other_type u "following_post" "follower_post" _ today _ h
      (by decide)]
    exact (aggregateKind_spec u "follower_post" _ today na h).1 hp
  · intro hz
    rw [aggregateKind_lookup_other_type u "engagement" "follower_post" _ today _ h
      (by decide)]
    rw [aggregateKind_lookup_other_type u "following_post" "follower_post" _ today _ h
      (by decide)]
    exact (aggregateKind_spec u "follower_post" _ today na h).2 hz
  · intro hp
    rw [aggregateKind_lookup_other_type u "engagement" "following_post" _ today _ h
      (by decide)]
    exact (aggregateKind_spec u "following_post" _ today _ h).1 hp
  · intro hz
    rw [aggregateKind_lookup_other_type u "engagement" "following_post" _ today _ h
      (by decide)]
    rw [(aggregateKind_spec u "following_post" _ today _ h).2 hz]
    rw [aggregateKind_lookup_other_type u "follower_post" "following_post" _ today _ h
      (by decide)]
  · intro hp
    exact (aggregateKind_spec u "engagement" _ today _ h).1 hp
  · intro hz
    rw [(aggregateKind_spec u "engagement" _ today _ h).2 hz]
    rw [aggregateKind_lookup_other_type u "following_post" "engagement" _ today _ h
      (by decide)]
    rw [aggregateKind_lookup_other_type u "follower_post" "engagement" _ today _ h
      (by decide)]

/-- A `network_activity` table holding one row written by an earlier run
today: (tenant 1, follower_post, hour 3, count 5, date 100). -/
def staleNA : List NARow := [⟨1, "follower_post", 3, 5, 100⟩]

/-- C5, counterexample to the claim as stated: running the aggregation when
the window now contains NO source rows leaves the stale count 5 for
(tenant 1, follower_post, hour 3, today) untouched — it does not become the
current source-row count 0. -/
theorem aggregate_stale_row :
    (followerHours 1 50 []).count 3 = 0 ∧
    aggregateHourlyActivity 1 50 100 [] [] staleNA = staleNA ∧
    lookupNA (aggregateHourlyActivity 1 50 100 [] [] staleNA)
      (1, "follower_post", 3, 100) = some ⟨1, "follower_post", 3, 5, 100⟩ := by
  decide

/-- Source rows used by the aggregation witness: two follower posts at hour
2 inside the window, plus the stale hour-3 row of `staleNA`. -/
def exPA : List PARow :=
  [⟨1, 77, "follower", 41, 60, 2⟩, ⟨1, 78, "follower", 42, 70, 2⟩]

/-- Witness for the aggregation theorem: hour 2 (two source rows) is
written with count 2; hour 3 (no source rows) keeps exactly the row it had
in `staleNA`. -/
theorem aggregateHourlyActivity_spec_witness :
    lookupNA (aggregateHourlyActivity 1 50 100 exPA [] staleNA)
        (1, "follower_post", 2, 100) =
      some ⟨1, "follower_post", 2, (followerHours 1 50 exPA).count 2, 100⟩ ∧
    lookupNA (aggregateHourlyActivity 1 50 100 exPA [] staleNA)
        (1, "follower_post", 3, 100) =
      lookupNA staleNA (1, "follower_post", 3, 100) :=
  ⟨(aggregateHourlyActivity_spec 1 50 100 exPA [] staleNA 2).1.1 (by decide),
   (aggregateHourlyActivity_spec 1 50 100 exPA [] staleNA 3).1.2 (by decide)⟩

/-! ## Rate limiting (src/auth.js, `rateLimit`)

`windowStart` is the top of the current clock hour; usage is
`SELECT COALESCE(SUM(request_count), 0) FROM api_usage WHERE user_id = $1
AND window_start = $2` (summed over all endpoints); the increment is an
`INSERT ... ON CONFLICT (user_id, endpoint, window_start) DO UPDATE SET
request_count = request_count + 1`.  `config.rateLimits` defaults: free
100/h, premium 1000/h.  The whole middleware body sits in a `try` whose
`catch` calls `next()`; the two failure flags of `rateLimitF` say whether
the usage lookup or the usage increment throws. -/

/-- A row of the `api_usage` table. -/
structure UsageRow where
  user_id : ℕ
  endpoint : String
  request_count : ℕ
  window_start : ℕ
deriving Repr, DecidableEq

/-- `windowStart.setHours(h, 0, 0, 0)`: the top of the hour containing `t`
(UNIX seconds). -/
def windowStartOf (t : ℕ) : ℕ := t / 3600 * 3600

/-- Hourly usage of a tenant: sum of `request_count` over its rows of this
window, across endpoints. -/
def usageOf : List UsageRow → ℕ → ℕ → ℕ
  | [], _, _ => 0
  | r :: rs, uid, ws =>
    (if r.user_id = uid ∧ r.window_start = ws then r.request_count else 0) +
      usageOf rs uid ws

/-- `config.rateLimits.premium` and `.free` (defaults 1000 and 100). -/
def tierLimit (tier : String) : ℕ := if tier = "premium" then 1000 else 100

/-- The usage increment upsert, keyed on (user_id, endpoint, window_start). -/
def upsertUsage : List UsageRow → ℕ → String → ℕ → List UsageRow
  | [], uid, ep, ws => [⟨uid, ep, 1, ws⟩]
  | r :: rs, uid, ep, ws =>
    if r.user_id = uid ∧ r.endpoint = ep ∧ r.window_start = ws then
      { r with request_count := r.request_count + 1 } :: rs
    else r :: upsertUsage rs uid ep ws

/-- The `X-RateLimit-*` response headers set on the allowed path. -/
structure RLHeaders where
  limit : ℕ
  remaining : ℕ
  reset : ℕ
deriving Repr, DecidableEq

/-- The JSON body of the 429 response (ISO `resetAt` as UNIX seconds). -/
structure RLBody where
  limit : ℕ
  remaining : ℕ
  resetAt : ℕ
deriving Repr, DecidableEq

/-- What one pass through the middleware did. -/
structure RLOutcome where
  nextCalled : Bool
  status : Option ℕ
  body : Option RLBody
  headers : Option RLHeaders
  table : List UsageRow
deriving Repr, DecidableEq

/-- The `rateLimit` middleware with injectable database failures: if the
usage lookup throws, the `catch` calls `next()` with nothing counted and no
headers; if the check passes and the increment throws, likewise (the
`setHeader` calls come after the increment).  When the usage is at or over
the limit the middleware responds 429 — with `limit`, `remaining: 0` and
`resetAt` in the JSON body only, no `X-RateLimit-*` headers — and does not
call `next()`. -/
def rateLimitF (lookupFails incrFails : Bool) (tier : String) (uid : ℕ)
    (ep : String) (t : ℕ) (tbl : List UsageRow) : RLOutcome :=
  if lookupFails then ⟨true, none, none, none, tbl⟩
  else
    let ws := windowStartOf t
    let currentUsage := usageOf tbl uid ws
    let lim := tierLimit tier
    if lim ≤ currentUsage then
      ⟨false, some 429, some ⟨lim, 0, ws + 3600⟩, none, tbl⟩
    else if incrFails then ⟨true, none, none, none, tbl⟩
    else
      ⟨true, none, none, some ⟨lim, lim - currentUsage - 1, ws + 3600⟩,
        upsertUsage tbl uid ep ws⟩

/-- The middleware without database failures. -/
def rateLimit (tier : String) (uid : ℕ) (ep : String) (t : ℕ)
    (tbl : List UsageRow) : RLOutcome :=
  rateLimitF false false tier uid ep t tbl

/-- A sequence of requests `(time, endpoint)` through the middleware,
threading the `api_usage` table; returns the outcome of each request. -/
def runRequests (tier : String) (uid : ℕ) :
    List (ℕ × String) → List UsageRow → List RLOutcome
  | [], _ => []
  | r :: rs, tbl =>
    rateLimit tier uid r.2 r.1 tbl ::
      runRequests tier uid rs (rateLimit tier uid r.2 r.1 tbl).table

lemma usageOf_upsert (tbl : List UsageRow) (uid : ℕ) (ep : String) (ws : ℕ) :
    usageOf (upsertUsage tbl uid ep ws) uid ws = usageOf tbl uid ws + 1 := by
  induction tbl with
  | nil => simp [upsertUsage, usageOf]
  | cons r rs ih =>
    by_cases hkey : r.user_id = uid ∧ r.endpoint = ep ∧ r.window_start = ws
    · unfold upsertUsage
      rw [if_pos hkey]
      unfold usageOf
      rw [if_pos ⟨hkey.1, hkey.2.2⟩, if_pos ⟨hkey.1, hkey.2.2⟩]
      dsimp only
      omega
    · unfold upsertUsage
      rw [if_neg hkey]
      unfold usageOf
      omega

lemma rateLimit_usage_step (tier : String) (uid : ℕ) (ep : String) (t : ℕ)
    (tbl : List UsageRow) :
    usageOf (rateLimit tier uid ep t tbl).table uid (windowStartOf t) =
      if tierLimit tier ≤ usageOf tbl uid (windowStartOf t) then
        usageOf tbl uid (windowStartOf t)
      else usageOf tbl uid (windowStartOf t) + 1 := by
  unfold rateLimit rateLimitF
  rw [if_neg (by simp)]
  by_cases hle : tierLimit tier ≤ usageOf tbl uid (windowStartOf t)
  · rw [if_pos hle, if_pos hle]
  · rw [if_neg hle, if_neg hle, if_neg (by simp)]
    exact usageOf_upsert tbl uid ep (windowStartOf t)

lemma runRequests_spec (uid w : ℕ) :
    ∀ (reqs : List (ℕ × String)) (tbl : List UsageRow) (k : ℕ),
      k < reqs.length → (∀ r ∈ reqs, windowStartOf r.1 = w) →
      (usageOf tbl uid w + k < 100 →
        ∃ tb, (runRequests "free" uid reqs tbl).get? k =
          some ⟨true, none, none,
            some ⟨100, 100 - (usageOf tbl uid w + k) - 1, w + 3600⟩, tb⟩) ∧
      (usageOf tbl uid w ≤ 100 → 100 ≤ usageOf tbl uid w + k →
        ∃ tb, (runRequests "free" uid reqs tbl).get? k =
          some ⟨false, some 429, some ⟨100, 0, w + 3600⟩, none, tb⟩) := by
  have hl : tierLimit "free" = 100 := by decide
  intro reqs
  induction reqs with
  | nil => intro tbl k hk _; cases hk
  | cons r rs ih =>
    intro tbl k hk hw
    have hwr : windowStartOf r.1 = w := hw r (List.mem_cons_self _ _)
    have hcons : runRequests "free" uid (r :: rs) tbl =
        rateLimit "free" uid r.2 r.1 tbl ::
          runRequests "free" uid rs (rateLimit "free" uid r.2 r.1 tbl).table := rfl
    rcases k with - | k2
    · constructor
      · intro hlt
        refine ⟨(upsertUsage tbl uid r.2 w), ?_⟩
        rw [hcons, List.get?_cons_zero]
        unfold rateLimit rateLimitF
        rw [if_neg (by simp), hwr, hl]
        rw [if_neg (by omega), if_neg (by simp)]
        norm_num
      · intro hle h100
        have hu : usageOf tbl uid w = 100 := by omega
        refine ⟨tbl, ?_⟩
        rw [hcons, List.get?_cons_zero]
        unfold rateLimit rateLimitF
        rw [if_neg (by simp), hwr, hl]
        rw [if_pos (by omega)]
    · have hstep := rateLimit_usage_step "free" uid r.2 r.1 tbl
      rw [hwr, hl] at hstep
      have hnext : (runRequests "free" uid (r :: rs) tbl).get? (k2 + 1) =
          (runRequests "free" uid rs
            (rateLimit "free" uid r.2 r.1 tbl).table).get? k2 := by
        rw [hcons, List.get?_cons_succ]
      have hwtail : ∀ q ∈ rs, windowStartOf q.1 = w :=
        fun q hq => hw q (List.mem_cons_of_mem _ hq)
      have hktail : k2 < rs.length := by simpa using hk
      constructor
      · intro hlt
        have hu2 : usageOf (rateLimit "free" uid r.2 r.1 tbl).table uid w =
            usageOf tbl uid w + 1 := by
          rw [hstep, if_neg (by omega)]
        have harith : usageOf tbl uid w + (k2 + 1) =
            usageOf (rateLimit "free" uid r.2 r.1 tbl).table uid w + k2 := by
          omega
        rw [hnext, harith]
        exact (ih ((rateLimit "free" uid r.2 r.1 tbl).table) k2 hktail
          hwtail).1 (by omega)
      · intro hle h100
        rw [hnext]
        by_cases hfull : 100 ≤ usageOf tbl uid w
        · have hu2 : usageOf (rateLimit "free" uid r.2 r.1 tbl).table uid w =
              usageOf tbl uid w := by
            rw [hstep, if_pos (by omega)]
          exact (ih ((rateLimit "free" uid r.2 r.1 tbl).table) k2 hktail
            hwtail).2 (by omega) (by omega)
        · have hu2 : usageOf (rateLimit "free" uid r.2 r.1 tbl).table uid w =
              usageOf tbl uid w + 1 := by
            rw [hstep, if_neg (by omega)]
          exact (ih ((rateLimit "free" uid r.2 r.1 tbl).table) k2 hktail
            hwtail).2 (by omega) (by omega)

/-- C6 (amended): on the free tier, starting from zero usage in the clock
hour, request k (0-based) of a same-hour sequence is allowed for k < 100
with `X-RateLimit-Remaining = 100 - (k+1)` (so remaining + used = 100) and
`X-RateLimit-Reset` at the top of the next hour; from k = 100 on (the 101st
request) it is answered 429 whose JSON body carries `remaining: 0` and
`resetAt` at the top of the next hour, with NO `X-RateLimit-*` headers, and
`next()` is not called (no business logic executes). -/
theorem rateLimit_free_tier_spec (uid w : ℕ) (reqs : List (ℕ × String))
    (tbl : List UsageRow) (hw : ∀ r ∈ reqs, windowStartOf r.1 = w)
    (h0 : usageOf tbl uid w = 0) (k : ℕ) (hk : k < reqs.length) :
    (k < 100 → ∃ tb, (runRequests "free" uid reqs tbl).get? k =
        some ⟨true, none, none, some ⟨100, 100 - (k + 1), w + 3600⟩, tb⟩ ∧
      100 - (k + 1) + (k + 1) = 100) ∧
    (100 ≤ k → ∃ tb, (runRequests "free" uid reqs tbl).get? k =
        some ⟨false, some 429, some ⟨100, 0, w + 3600⟩, none, tb⟩) := by
  have hs := runRequests_spec uid w reqs tbl k hk hw
  constructor
  · intro hklt
    obtain ⟨tb, htb⟩ := hs.1 (by omega)
    rw [h0] at htb
    rw [show (100 : ℕ) - (0 + k) - 1 = 100 - (k + 1) from by omega] at htb
    exact ⟨tb, htb, by omega⟩
  · intro hk100
    exact hs.2 (by omega) (by omega)

/-- An `api_usage` table whose hour window starting at 7200 already holds
100 requests for tenant 1. -/
def fullTable : List UsageRow := [⟨1, "/metrics/summary", 100, 7200⟩]

/-- C6, counterexample to the claim as stated: the over-limit request is
answered 429 with `limit`, `remaining: 0` and `resetAt` (top of next hour)
in the JSON body only — `res.setHeader` is never reached on this path, so
the 429 carries no `X-RateLimit-Remaining` (or any `X-RateLimit-*`)
header. -/
theorem rateLimit429_no_headers :
    (rateLimit "free" 1 "/metrics/summary" 7300 fullTable).status = some 429 ∧
    (rateLimit "free" 1 "/metrics/summary" 7300 fullTable).headers = none ∧
    (rateLimit "free" 1 "/metrics/summary" 7300 fullTable).body =
      some ⟨100, 0, 10800⟩ ∧
    (rateLimit "free" 1 "/metrics/summary" 7300 fullTable).nextCalled = false := by
  decide

/-- Witness for the free-tier theorem on a concrete run of 101 same-hour
requests: the 101st (k = 100) is rejected with the body fields, the first
is allowed with remaining 99. -/
theorem rateLimit_free_tier_spec_witness :
    (∃ tb, (runRequests "free" 1 (List.replicate 101 (3700, "/e")) []).get? 100 =
        some ⟨false, some 429, some ⟨100, 0, 3600 + 3600⟩, none, tb⟩) ∧
    (∃ tb, (runRequests "free" 1 (List.replicate 101 (3700, "/e")) []).get? 0 =
        some ⟨true, none, none, some ⟨100, 100 - (0 + 1), 3600 + 3600⟩, tb⟩ ∧
      100 - (0 + 1) + (0 + 1) = 100) :=
  ⟨(rateLimit_free_tier_spec 1 3600 (List.replicate 101 (3700, "/e")) []
      (by decide) rfl 100 (by decide)).2 (by decide),
   (rateLimit_free_tier_spec 1 3600 (List.replicate 101 (3700, "/e")) []
      (by decide) rfl 0 (by decide)).1 (by decide)⟩

/-- C10: the rate limiter fails open — when the usage lookup throws, or the
check passed and the usage increment throws, the `catch` passes the request
through: `next()` is called, no `X-RateLimit-*` headers are set, no 429 is
produced, and the usage table is unchanged (the request is not counted). -/
theorem rateLimitF_fail_open (lf incf : Bool) (tier : String) (uid : ℕ)
    (ep : String) (t : ℕ) (tbl : List UsageRow)
    (hfail : lf = true ∨
      (incf = true ∧ usageOf tbl uid (windowStartOf t) < tierLimit tier)) :
    (rateLimitF lf incf tier uid ep t tbl).nextCalled = true ∧
    (rateLimitF lf incf tier uid ep t tbl).headers = none ∧
    (rateLimitF lf incf tier uid ep t tbl).status = none ∧
    (rateLimitF lf incf tier uid ep t tbl).table = tbl := by
  rcases lf with - | -
  · rcases hfail with hlf | ⟨hincf, hlt⟩
    · cases hlf
    · subst hincf
      have hout : rateLimitF false true tier uid ep t tbl =
          ⟨true, none, none, none, tbl⟩ := by
        unfold rateLimitF
        rw [if_neg (by simp), if_neg (by omega), if_pos rfl]
      rw [hout]
      exact ⟨rfl, rfl, rfl, rfl⟩
  · have hout : rateLimitF true incf tier uid ep t tbl =
        ⟨true, none, none, none, tbl⟩ := by
      unfold rateLimitF
      rw [if_pos rfl]
    rw [hout]
    exact ⟨rfl, rfl, rfl, rfl⟩

/-- Witness for the fail-open theorem: a failing usage lookup on an empty
table still passes the request through uncounted. -/
theorem rateLimitF_fail_open_witness :
    (rateLimitF true false "free" 1 "/e" 50 []).nextCalled = true ∧
    (rateLimitF true false "free" 1 "/e" 50 []).headers = none ∧
    (rateLimitF true false "free" 1 "/e" 50 []).status = none ∧
    (rateLimitF true false "free" 1 "/e" 50 []).table = [] :=
  rateLimitF_fail_open true false "free" 1 "/e" 50 [] (Or.inl rfl)

/-! ## Event acknowledgement and activity feed
    (src/growth-metrics.js `acknowledgeEvents`, src/agent-api.js `getActivity`)

The repository carries two conflicting `events` schemas: `sql/schema.sql`
has columns `event_type` / `metadata` / `processed`, while
`sql/migrations/002_agent_api_tables.sql` (the one AGENT_API.md documents)
has `type` / `event_data` / `acknowledged`; both use `CREATE TABLE IF NOT
EXISTS`, so a real database has only one of the two column sets.
`acknowledgeEvents` runs `UPDATE events SET processed = true ...` while
`getActivity` filters `... AND e.acknowledged = false`.  To exhibit the
mismatch itself (rather than a missing-column SQL error), rows here carry
both flag columns. -/

/-- An `events` row carrying the flag columns of both schemas. -/
structure AckRow where
  id : ℕ
  user_id : ℕ
  etype : String
  created_at : ℕ
  processed : Bool
  acknowledged : Bool
deriving Repr, DecidableEq

/-- `POST /events/acknowledge`: set `processed = true` on the tenant's
listed, not-yet-processed rows; return (rows, acknowledged count, remaining
count of the tenant's unprocessed rows). -/
def acknowledgeEvents (u : ℕ) (eventIds : List ℕ) (rows : List AckRow) :
    List AckRow × ℕ × ℕ :=
  let updated := rows.map fun r =>
    if r.user_id = u ∧ r.id ∈ eventIds ∧ r.processed = false then
      { r with processed := true }
    else r
  let acknowledged := rows.countP fun r =>
    decide (r.user_id = u ∧ r.id ∈ eventIds ∧ r.processed = false)
  let remaining := updated.countP fun r =>
    decide (r.user_id = u ∧ r.processed = false)
  (updated, acknowledged, remaining)

/-- The default `types` filter of `GET /events/activity`. -/
def activityTypesDefault : List String :=
  ["reaction", "reply", "mention", "zap", "follow"]

/-- `GET /events/activity`: the tenant's rows since the cutoff, of the
requested types, with `acknowledged = false`, newest first. -/
def getActivity (u since : ℕ) (types : List String) (rows : List AckRow) :
    List AckRow :=
  List.insertionSort (fun a b => b.created_at ≤ a.created_at)
    (rows.filter fun r =>
      decide (r.user_id = u ∧ since ≤ r.created_at ∧
        r.etype ∈ types ∧ r.acknowledged = false))

/-- One unacknowledged mention event (row id 7) of tenant 1. -/
def ackRows0 : List AckRow := [⟨7, 1, "mention", 1000, false, false⟩]

/-- C3: the code contradicts its own docs — `POST /events/acknowledge`
reports `acknowledged: 1, remaining: 0`, yet the very same event still
appears in `GET /events/activity`, because the update writes `processed`
while the feed filters on `acknowledged` (and under each of the repo's two
real schemas, one of the two queries references a column that does not
exist at all). -/
theorem acknowledge_then_activity_bug :
    (acknowledgeEvents 1 [7] ackRows0).2.1 = 1 ∧
    (acknowledgeEvents 1 [7] ackRows0).2.2 = 0 ∧
    (getActivity 1 0 activityTypesDefault
      (acknowledgeEvents 1 [7] ackRows0).1).map AckRow.id = [7] := by
  decide

/-! ## Network scanner: quick scan
    (src/network-scanner.js `quickScanNetwork` and the
    `GET /metrics/timing/quick-scan` handler)

`getFollowingList` and `fetchNetworkPosts` only read from relays, so the
following list and the fetched posts are inputs here; the whole quick-scan
path contains no `db.query` call. -/

/-- A text-note event fetched from relays. -/
structure Post where
  id : ℕ
  pubkey : ℕ
  created_at : ℕ
deriving Repr, DecidableEq

/-- `new Date(post.created_at * 1000).getUTCHours()` for UNIX seconds. -/
def postHour (p : Post) : ℕ := p.created_at / 3600 % 24

/-- The success payload of `quickScanNetwork`. -/
structure QSData where
  following_count : ℕ
  posts_analyzed : ℕ
  period : String
  hourly_distribution : List (ℕ × ℕ)
  peak_hours : List ℕ
  zone_of_max_participation : Option ZoneFull
deriving Repr, DecidableEq

/-- A quick-scan result: the early `{error, hourly_distribution: []}`
object, or the full payload. -/
inductive QSResult where
  | err (error : String) (hourly_distribution : List (ℕ × ℕ))
  | ok (data : QSData)
deriving Repr, DecidableEq

/-- The quick-scan zone loop: same scan as
`calculateMaxParticipationZone`, but the percentage is computed against
`posts.length` inside the loop (the final update's activity is the final
maximum, so the returned percentage uses the final maximum). -/
def quickScanZone (hd : Fin 24 → ℕ) (total : ℕ) : Option ZoneFull :=
  match zoneLoop hd with
  | (none, _) => none
  | (some b, m) =>
    some { toZone := b
           percentage_of_total :=
             if 0 < total then round1 ((m : ℚ) / (total : ℚ) * 100) else 0 }

/-- The 24 hourly buckets of the fetched posts. -/
def quickHist (posts : List Post) : Fin 24 → ℕ := fun h =>
  posts.countP fun p => decide (postHour p = (h : ℕ))

/-- `quickScanNetwork`: error object when no contact list was found,
otherwise the assembled histogram, peak hours and zone. -/
def quickScanNetwork (following : List ℕ) (posts : List Post)
    (period : String) : QSResult :=
  if following.isEmpty then QSResult.err "No following list found" []
  else
    QSResult.ok
      { following_count := following.length
        posts_analyzed := posts.length
        period := period
        hourly_distribution := enumHist (quickHist posts)
        peak_hours := peakHours (quickHist posts)
        zone_of_max_participation := quickScanZone (quickHist posts) posts.length }

/-- The top-level keys of the JSON object the quick-scan handler responds
with: `res.json({...result, current_time_gmt})`. -/
def quickScanResponseKeys : List String :=
  ["following_count", "posts_analyzed", "period", "hourly_distribution",
   "peak_hours", "zone_of_max_participation", "current_time_gmt"]

/-- The `GET /metrics/timing/quick-scan` handler threads the persistent
state through untouched: the path performs no `db.query` call. -/
def quickScanHandler (following : List ℕ) (posts : List Post)
    (period : String) (post_activity : List PARow) :
    QSResult × List PARow :=
  (quickScanNetwork following posts period, post_activity)

lemma enumHist_map_snd (hd : Fin 24 → ℕ) :
    (enumHist hd).map Prod.snd = (List.finRange 24).map hd := by
  unfold enumHist
  rw [List.map_map]
  rfl

lemma sum_enumHist (hd : Fin 24 → ℕ) :
    ((enumHist hd).map Prod.snd).sum = totalActivity hd := by
  rw [enumHist_map_snd]
  unfold totalActivity
  exact (Fin.sum_univ_def hd).symm

lemma indicator_hour_sum : ∀ m : ℕ, m < 24 →
    (∑ h : Fin 24, if m = (h : ℕ) then 1 else 0) = 1 := by
  intro m hm
  interval_cases m <;> decide

lemma totalActivity_quickHist (posts : List Post) :
    totalActivity (quickHist posts) = posts.length := by
  induction posts with
  | nil => simp [totalActivity, quickHist]
  | cons p ps ih =>
    unfold totalActivity quickHist at ih ⊢
    have hsplit : (∑ h : Fin 24,
        (p :: ps).countP fun q => decide (postHour q = (h : ℕ))) =
        (∑ h : Fin 24, ((ps.countP fun q => decide (postHour q = (h : ℕ))) +
          if postHour p = (h : ℕ) then 1 else 0)) := by
      refine Finset.sum_congr rfl fun h _ => ?_
      rw [List.countP_cons]
      simp only [decide_eq_true_eq]
    rw [hsplit, Finset.sum_add_distrib, ih,
      indicator_hour_sum (postHour p) (Nat.mod_lt _ (by norm_num))]
    simp

/-- C8, counterexample to the claim as stated: the quick-scan response has
no nested `following` object — `hourly_distribution` is a top-level key —
and when no contact list is found the response is
`{error, hourly_distribution: []}` (length 0, no `posts_analyzed`). -/
theorem quickScan_keys_counterexample :
    "following" ∉ quickScanResponseKeys ∧
    "hourly_distribution" ∈ quickScanResponseKeys ∧
    quickScanNetwork [] [] "7d" = QSResult.err "No following list found" [] := by
  decide

/-- C8 (amended): whenever a following list was found, the quick-scan
response carries a top-level `hourly_distribution` of length 24 whose
counts sum to `posts_analyzed` (= the number of fetched posts), and the
quick scan writes nothing: the persistent state is returned unchanged. -/
theorem quickScanNetwork_spec (following : List ℕ) (posts : List Post)
    (period : String) (pa : List PARow) (hne : following ≠ []) :
    ∃ d, quickScanNetwork following posts period = QSResult.ok d ∧
      d.hourly_distribution.length = 24 ∧
      (d.hourly_distribution.map Prod.snd).sum = d.posts_analyzed ∧
      d.posts_analyzed = posts.length ∧
      quickScanHandler following posts period pa =
        (quickScanNetwork following posts period, pa) := by
  rcases following with - | ⟨a, as⟩
  · exact absurd rfl hne
  · refine ⟨_, rfl, ?_, ?_, rfl, rfl⟩
    · show (enumHist (quickHist posts)).length = 24
      simp [enumHist]
    · show ((enumHist (quickHist posts)).map Prod.snd).sum = posts.length
      rw [sum_enumHist, totalActivity_quickHist]

/-- A one-account following list for the quick-scan witness. -/
def exFollowing : List ℕ := [42]

/-- One fetched post (hour 2 GMT) for the quick-scan witness. -/
def exPosts : List Post := [⟨1, 42, 7200⟩]

/-- Witness for the quick-scan theorem at a concrete following list and
post set. -/
theorem quickScanNetwork_spec_witness :
    ∃ d, quickScanNetwork exFollowing exPosts "7d" = QSResult.ok d ∧
      d.hourly_distribution.length = 24 ∧
      (d.hourly_distribution.map Prod.snd).sum = d.posts_analyzed ∧
      d.posts_analyzed = exPosts.length ∧
      quickScanHandler exFollowing exPosts "7d" [] =
        (quickScanNetwork exFollowing exPosts "7d", []) :=
  quickScanNetwork_spec exFollowing exPosts "7d" [] (by decide)

/-! ## Network scanner: full scan
    (src/network-scanner.js `scanUserNetwork` and the
    `POST /admin/scan-network` handler)

`getFollowingList` (the relay fetch of the tenant's contact list) is an
input; `CURRENT_DATE` is `today`.  The `post_activity` insert's
`ON CONFLICT DO NOTHING` is keyed on (user_id, note_id) — the
`001_timing_analytics.sql` migration that declares the constraint is not in
the repository snapshot; the choice does not affect any claim settled
here. -/

/-- A full-scan result: the recoverable no-contact-list object
`{success: false, error, following_count, posts_found}`, or the success
object. -/
inductive ScanOut where
  | failed (error : String) (following_count posts_found : ℕ)
  | ok (following_count posts_found posts_stored : ℕ) (period : String)
deriving Repr, DecidableEq

/-- The keys of the failure object returned by `scanUserNetwork` when no
contact list is found. -/
def scanFailKeys : List String :=
  ["success", "error", "following_count", "posts_found"]

/-- The database state the full scan touches. -/
structure ScanDB where
  following : List (ℕ × ℕ)
  post_activity : List PARow
  network_activity : List NARow
  insights : List (ℕ × String)
deriving Repr, DecidableEq

/-- `scanUserNetwork`: bail out with the recoverable failure object when
the contact list is empty; otherwise store the following list, store the
posts as `post_activity` rows with role `following`, and aggregate them
into `network_activity`.  (`stored` counts every insert attempt that does
not throw, so with `ON CONFLICT DO NOTHING` it equals the number of fetched
posts.) -/
def scanUserNetwork (userId : ℕ) (following : List ℕ) (posts : List Post)
    (period : String) (today : ℕ) (db : ScanDB) : ScanOut × ScanDB :=
  if following.isEmpty then
    (ScanOut.failed "No following list found" 0 0, db)
  else
    let db1 : ScanDB := { db with
      following := following.foldl
        (fun (acc : List (ℕ × ℕ)) (pk : ℕ) =>
          if (userId, pk) ∈ acc then acc else acc ++ [(userId, pk)])
        db.following }
    let db2 : ScanDB := { db1 with
      post_activity := posts.foldl
        (fun (acc : List PARow) (p : Post) =>
          if acc.any fun r => r.user_id == userId && r.note_id == p.id then acc
          else acc ++ [⟨userId, p.pubkey, "following", p.id, p.created_at, postHour p⟩])
        db1.post_activity }
    let db3 : ScanDB := { db2 with
      network_activity := aggregateKind userId "following_post"
        ((db2.post_activity.filter fun r =>
          r.user_id == userId && r.author_type == "following").map PARow.hour_gmt)
        today db2.network_activity }
    (ScanOut.ok following.length posts.length posts.length period, db3)

/-- The `POST /admin/scan-network` handler: validate the period, run the
scan; a `success: false` result is answered 400 with the scan's payload (no
exception, no cache invalidation); on success the tenant's insights are
deleted and the result answered 200. -/
def adminScanNetwork (userId : ℕ) (period : String) (following : List ℕ)
    (posts : List Post) (today : ℕ) (db : ScanDB) :
    (ℕ × Option ScanOut) × ScanDB :=
  if ¬(period = "7d" ∨ period = "30d" ∨ period = "90d") then ((400, none), db)
  else
    match scanUserNetwork userId following posts period today db with
    | (ScanOut.failed err fc pf, db2) => ((400, some (ScanOut.failed err fc pf)), db2)
    | (ScanOut.ok fc pf ps per, db2) =>
      ((200, some (ScanOut.ok fc pf ps per)),
        { db2 with insights := db2.insights.filter fun i => i.1 ≠ userId })

/-- A database holding one cached insight for tenant 1. -/
def exScanDB : ScanDB := ⟨[], [], [], [(1, "cached")]⟩

/-- C9, counterexample to the claim as stated: the recoverable result of a
scan with no contact list is `{success: false, error: "No following list
found", following_count: 0, posts_found: 0}` — there is no `reason` field
and the message is not "no contact list". -/
theorem scanNoContactList_shape :
    scanUserNetwork 1 [] [] "30d" 0 exScanDB =
      (ScanOut.failed "No following list found" 0 0, exScanDB) ∧
    "reason" ∉ scanFailKeys ∧
    "error" ∈ scanFailKeys := by decide

/-- C9 (amended): a full scan that finds no contact list does not fail —
`scanUserNetwork` returns the recoverable object `{success: false, error:
"No following list found", following_count: 0, posts_found: 0}` without
touching the database, and the admin handler answers 400 with that payload
(and does not invalidate the insight cache). -/
theorem scanUserNetwork_noContactList (u : ℕ) (posts : List Post)
    (period : String) (today : ℕ) (db : ScanDB)
    (hp : period = "7d" ∨ period = "30d" ∨ period = "90d") :
    scanUserNetwork u [] posts period today db =
      (ScanOut.failed "No following list found" 0 0, db) ∧
    adminScanNetwork u period [] posts today db =
      ((400, some (ScanOut.failed "No following list found" 0 0)), db) := by
  have h1 : scanUserNetwork u [] posts period today db =
      (ScanOut.failed "No following list found" 0 0, db) := rfl
  refine ⟨h1, ?_⟩
  unfold adminScanNetwork
  rw [if_neg (by tauto), h1]

/-- Witness for the no-contact-list theorem at concrete arguments. -/
theorem scanUserNetwork_noContactList_witness :
    scanUserNetwork 3 [] [] "30d" 55 exScanDB =
      (ScanOut.failed "No following list found" 0 0, exScanDB) ∧
    adminScanNetwork 3 "30d" [] [] 55 exScanDB =
      ((400, some (ScanOut.failed "No following list found" 0 0)), exScanDB) :=
  scanUserNetwork_noContactList 3 [] "30d" 55 exScanDB (Or.inr (Or.inl rfl))

end DeepClaw
